import Mathlib

/-!
# Path & Motion Engine with Camera Replay (`src/main.js`)

A shallow embedding of the path editor (waypoints, undo/redo history), the race
motion solver (speed / distance / drift integration in `animate`) and the
`CameraRecorder` object, followed by theorems about them.

Conventions of the embedding:

* JavaScript numbers are modelled by exact rationals (`ℚ`); rounding of IEEE
  doubles is not modelled.
* A JavaScript array used as a stack (`undoStack`, `redoStack`) is a `List`
  whose head is the top of the stack (`push` is `::`, `pop` removes the head).
* An array that is scanned by index (`waypoints`, `keyframes`) is a `List` in
  index order; `push` appends at the end.
* `null` / `undefined` are `Option.none`.
-/

namespace PathRace

/-! ## Data model -/

/-- A `THREE.Vector3` with exact coordinates. -/
structure Vec3 where
  x : ℚ
  y : ℚ
  z : ℚ
deriving DecidableEq, Repr

/-- Squared Euclidean distance; `a.distanceTo(b) < r` is `distSq a b < r * r`
for `r ≥ 0`. -/
def Vec3.distSq (a b : Vec3) : ℚ :=
  (a.x - b.x) * (a.x - b.x) + (a.y - b.y) * (a.y - b.y) + (a.z - b.z) * (a.z - b.z)

/-- The yellow preview line built by `updateCurve`: the control points handed to
`THREE.CatmullRomCurve3` and its `closed` flag. -/
structure CurveLine where
  points : List Vec3
  closed : Bool
deriving DecidableEq, Repr

/-- The path editor's globals: `waypoints` (the positions of the marker meshes),
`undoStack`, `redoStack`, `window.forceClosedLoop` and `curveLine`. -/
structure Editor where
  waypoints : List Vec3
  undoStack : List (List Vec3)
  redoStack : List (List Vec3)
  forceClosedLoop : Bool
  curveLine : Option CurveLine
deriving DecidableEq, Repr

/-- The editor as the script leaves it after loading: no waypoint, empty
histories, no forced loop, no preview line. -/
def Editor.init : Editor :=
  { waypoints := [], undoStack := [], redoStack := [], forceClosedLoop := false,
    curveLine := none }

/-! ## Path editor -/

/-- The closed flag computed in `updateCurve`:
`window.forceClosedLoop || (points.length > 2 && points[0].distanceTo(last) < 0.1)`. -/
def isClosedOf (force : Bool) (points : List Vec3) : Bool :=
  force || (decide (2 < points.length) &&
    match points.head?, points.getLast? with
    | some a, some b => decide (Vec3.distSq a b < 1 / 100)
    | _, _ => false)

/-- Function `updateCurve()`: nothing with fewer than two waypoints, otherwise
the preview line is rebuilt from the live waypoint positions. -/
def updateCurve (e : Editor) : Editor :=
  if e.waypoints.length < 2 then e
  else
    { e with
      curveLine := some ⟨e.waypoints, isClosedOf e.forceClosedLoop e.waypoints⟩ }

/-- Function `saveState()`: pushes a copy of the live positions on the undo
stack and empties the redo stack. -/
def saveState (e : Editor) : Editor :=
  { e with undoStack := e.waypoints :: e.undoStack, redoStack := [] }

/-- Function `addWaypoint(position, recordState)`: optionally records history,
creates a marker at `position` lifted by `0.5` in `y`
(`sphere.position.copy(position); sphere.position.y += 0.5`), appends it and
rebuilds the preview line. -/
def addWaypoint (position : Vec3) (recordState : Bool) (e : Editor) : Editor :=
  let e1 := if recordState then saveState e else e
  let sphere : Vec3 := { x := position.x, y := position.y + 1 / 2, z := position.z }
  updateCurve { e1 with waypoints := e1.waypoints ++ [sphere] }

/-- Function `restoreState(state)`: clears the live waypoints, re-adds every
stored position through `addWaypoint(pos, false)` and rebuilds the line. -/
def restoreState (state : List Vec3) (e : Editor) : Editor :=
  updateCurve (state.foldl (fun acc pos => addWaypoint pos false acc)
    { e with waypoints := [] })

/-- Function `undo()`: a no-op on an empty undo stack; otherwise the live
positions go on the redo stack and the popped snapshot is restored. -/
def undo (e : Editor) : Editor :=
  match e.undoStack with
  | [] => e
  | previousState :: rest =>
    restoreState previousState
      { e with redoStack := e.waypoints :: e.redoStack, undoStack := rest }

/-- Function `redo()`: a no-op on an empty redo stack; otherwise the live
positions go on the undo stack and the popped snapshot is restored. -/
def redo (e : Editor) : Editor :=
  match e.redoStack with
  | [] => e
  | nextState :: rest =>
    restoreState nextState
      { e with undoStack := e.waypoints :: e.undoStack, redoStack := rest }

/-- The function `f` applied `n` times. -/
def iter {α : Type} (f : α → α) : Nat → α → α
  | 0, a => a
  | n + 1, a => iter f n (f a)

/-! ## Race motion solver -/

/-- The record `raceConfig`: `acceleration` and `maxSpeed` (both adjustable
by sliders at run time, initially `10` and `40`). -/
structure RaceConfig where
  acceleration : ℚ
  maxSpeed : ℚ
deriving DecidableEq, Repr

/-- The initial `raceConfig = { acceleration: 10.0, maxSpeed: 40.0 }`. -/
def raceConfig : RaceConfig := { acceleration := 10, maxSpeed := 40 }

/-- The record `raceState` of an assigned path: `startRace` and `resetRace` create
it as `{ distance: 0, speed: 0 }`, and `currentDrift` stays `undefined` until
the first race frame. -/
structure RaceState where
  distance : ℚ
  speed : ℚ
  currentDrift : Option ℚ
deriving DecidableEq, Repr

/-- The race state written by `startRace()` (and by `resetRace()`). -/
def startRaceState : RaceState := { distance := 0, speed := 0, currentDrift := none }

/-- What the solver uses of a `THREE.CatmullRomCurve3`: its length and its
tangent query. The curve itself is library code; any function may stand for
`getTangentAt`. -/
structure Curve3 where
  getLength : ℚ
  getTangentAt : ℚ → Vec3

/-- Library function `THREE.MathUtils.lerp(x, y, t) = (1 - t) * x + t * y`. -/
def lerp (x y t : ℚ) : ℚ := (1 - t) * x + t * y

/-- JavaScript `x % 1.0`: the remainder of the division truncated towards
zero, carrying the sign of `x`. -/
def jsMod1 (x : ℚ) : ℚ := if 0 ≤ x then Int.fract x else -Int.fract (-x)

/-- The frame time of `animate`: `Math.min(clock.getDelta(), 0.1)`. -/
def frameDelta (elapsed : ℚ) : ℚ := min elapsed (1 / 10)

/-- The curve parameter `t = (state.distance / totalLength) % 1.0`. A curve of
length `0` is outside the solver's domain (IEEE division by zero is not
modelled; `x / 0` is `0` here). -/
def curveParam (distance totalLength : ℚ) : ℚ := jsMod1 (distance / totalLength)

/-- The look-ahead parameter `tAhead = Math.min(t + 0.02, 0.999)`. -/
def lookAhead (t : ℚ) : ℚ := min (t + 2 / 100) (999 / 1000)

/-- The turn direction `tangent.x * tangentAhead.z - tangent.z * tangentAhead.x`. -/
def turnDir (tangent tangentAhead : Vec3) : ℚ :=
  tangent.x * tangentAhead.z - tangent.z * tangentAhead.x

/-- The target drift `Math.max(-0.8, Math.min(0.8, turnDir * 4.0))`. -/
def targetDrift (tangent tangentAhead : Vec3) : ℚ :=
  max (-(8 / 10)) (min (8 / 10) (turnDir tangent tangentAhead * 4))

/-- The lerp factor `smoothFactor = 5.0 * delta`. -/
def smoothFactor (delta : ℚ) : ℚ := 5 * delta

/-- The drift smoothing of a race frame: `currentDrift` is initialised to `0`
when missing and then moved towards the target by
`lerp(currentDrift, targetDrift, smoothFactor)`. -/
def driftStep (tangent tangentAhead : Vec3) (delta : ℚ) (currentDrift : Option ℚ) : ℚ :=
  lerp (currentDrift.getD 0) (targetDrift tangent tangentAhead) (smoothFactor delta)

/-- One race frame of `animate` for a car with an assigned curve, on its
`raceState`: accelerate, move, map the distance to the curve parameter, sample
the two tangents and smooth the drift. The writes to the car's position,
heading and wheels read the new state and do not feed back into it. -/
def raceStep (cfg : RaceConfig) (curve : Curve3) (delta : ℚ) (state : RaceState) :
    RaceState :=
  let speed := min (state.speed + cfg.acceleration * delta) cfg.maxSpeed
  let distance := state.distance + speed * delta
  let t := curveParam distance curve.getLength
  let tangent := curve.getTangentAt t
  let tangentAhead := curve.getTangentAt (lookAhead t)
  { distance := distance, speed := speed,
    currentDrift := some (driftStep tangent tangentAhead delta state.currentDrift) }

/-- The body of the per-car loop of a race frame: a missing `raceState` is
created as `{ distance: 0, speed: 0 }`, and the solver runs only when the slot
has a curve and its car is loaded. -/
def raceSlotFrame (cfg : RaceConfig) (curve : Option Curve3) (carLoaded : Bool)
    (delta : ℚ) (raceState : Option RaceState) : RaceState :=
  let state := raceState.getD startRaceState
  match curve, carLoaded with
  | some c, true => raceStep cfg c delta state
  | _, _ => state

/-- Consecutive race frames of one slot, given the frame time and the curve of
each frame (first frame first). -/
def raceFrames (cfg : RaceConfig) : List (ℚ × Curve3) → RaceState → RaceState
  | [], state => state
  | (delta, curve) :: rest, state => raceFrames cfg rest (raceStep cfg curve delta state)

/-! ## Camera recorder / player -/

/-- One entry of `CameraRecorder.keyframes`:
`{ time, cameraName, pitch, yaw, roll }`. -/
structure Keyframe where
  time : ℚ
  cameraName : String
  pitch : ℚ
  yaw : ℚ
  roll : ℚ
deriving DecidableEq, Repr

/-- The globals read and written by the recorder and by the race clock:
the `CameraRecorder` fields, `isRacing`, `raceTime`, the value `_activeCamVal`
behind the property `window.activeCameraName`, the closure variable
`activeCameraName` of the camera manager, whether `window.setActiveCamera` and
`window.updateCameraManagerUI` have been installed, and the three angle
sliders `window.cameraPitch`, `window.cameraYaw`, `window.cameraRoll` (numbers,
so that `window.cameraPitch || 0` is the slider value itself). -/
structure Session where
  isRecording : Bool
  isPlaying : Bool
  keyframes : List Keyframe
  isRacing : Bool
  raceTime : ℚ
  activeCamVal : Option String
  activeCameraName : Option String
  hasSetActiveCamera : Bool
  hasUpdateCameraManagerUI : Bool
  cameraPitch : ℚ
  cameraYaw : ℚ
  cameraRoll : ℚ
deriving DecidableEq, Repr

/-- The session once the script and `setupPathEditor` have run: nothing is
recorded or played, no race, default camera, helpers installed, angles `0`. -/
def Session.init : Session :=
  { isRecording := false, isPlaying := false, keyframes := [], isRacing := false,
    raceTime := 0, activeCamVal := none, activeCameraName := none,
    hasSetActiveCamera := true, hasUpdateCameraManagerUI := true,
    cameraPitch := 0, cameraYaw := 0, cameraRoll := 0 }

/-- The expression `name || "Default Chase"`: `null` and the empty string are
falsy. -/
def orDefaultChase (name : Option String) : String :=
  match name with
  | some n => if n = "" then "Default Chase" else n
  | none => "Default Chase"

/-- The time stamp `isRacing ? raceTime : 0` used by the recorder. -/
def Session.recordTime (s : Session) : ℚ := if s.isRacing then s.raceTime else 0

/-- Method `CameraRecorder.logSwitch(cameraName)`: while recording, appends a
keyframe with the time stamp, the given name and the three slider angles. -/
def logSwitch (cameraName : String) (s : Session) : Session :=
  if !s.isRecording then s
  else
    { s with
      keyframes := s.keyframes ++
        [{ time := s.recordTime, cameraName := cameraName, pitch := s.cameraPitch,
           yaw := s.cameraYaw, roll := s.cameraRoll }] }

/-- The setter of `window.activeCameraName`: stores the value and calls
`CameraRecorder.logSwitch(val || "Default Chase")`. -/
def setWindowActiveCameraName (val : Option String) (s : Session) : Session :=
  logSwitch (orDefaultChase val) { s with activeCamVal := val }

/-- Function `updateCameraManagerUI()`, as far as the session goes: it assigns
the closure variable to `window.activeCameraName` and installs
`window.setActiveCamera`; the rest redraws the list. -/
def updateCameraManagerUI (s : Session) : Session :=
  { setWindowActiveCameraName s.activeCameraName s with hasSetActiveCamera := true }

/-- The helper `window.setActiveCamera(name)`: when the closure variable differs
from `name` it is updated and the UI is refreshed. -/
def setActiveCamera (name : String) (s : Session) : Session :=
  if s.activeCameraName ≠ some name then
    updateCameraManagerUI { s with activeCameraName := some name }
  else s

/-- A click on an entry of the camera list (`none` is the "Default Chase"
entry): the closure variable is set and the UI refreshed. -/
def selectCamera (name : Option String) (s : Session) : Session :=
  updateCameraManagerUI { s with activeCameraName := name }

/-- The three angle sliders set to new values. -/
def setCameraAngles (pitch yaw roll : ℚ) (s : Session) : Session :=
  { s with cameraPitch := pitch, cameraYaw := yaw, cameraRoll := roll }

/-- Method `CameraRecorder.startRecording()`: recording on, playing off, the
keyframe list emptied, then the initial state logged. -/
def startRecording (s : Session) : Session :=
  logSwitch (orDefaultChase s.activeCamVal)
    { s with isRecording := true, isPlaying := false, keyframes := [] }

/-- Method `CameraRecorder.stopRecording()`: recording off (the export that
follows downloads a file and changes nothing here). -/
def stopRecording (s : Session) : Session := { s with isRecording := false }

/-- Method `CameraRecorder.logAngles()`: while recording, nothing when the last
keyframe exists and all three angles are within `0.5` of it, otherwise a
keyframe with the time stamp, `window.activeCameraName || "Default Chase"` and
the slider angles is appended. -/
def logAngles (s : Session) : Session :=
  if !s.isRecording then s
  else
    match s.keyframes.getLast? with
    | some lastKf =>
      if |lastKf.pitch - s.cameraPitch| < 1 / 2 ∧ |lastKf.yaw - s.cameraYaw| < 1 / 2 ∧
          |lastKf.roll - s.cameraRoll| < 1 / 2 then s
      else
        { s with
          keyframes := s.keyframes ++
            [{ time := s.recordTime, cameraName := orDefaultChase s.activeCamVal,
               pitch := s.cameraPitch, yaw := s.cameraYaw, roll := s.cameraRoll }] }
    | none =>
      { s with
        keyframes := s.keyframes ++
          [{ time := s.recordTime, cameraName := orDefaultChase s.activeCamVal,
             pitch := s.cameraPitch, yaw := s.cameraYaw, roll := s.cameraRoll }] }

/-- The scan loop of `CameraRecorder.update`: from index `0` upwards, an entry
with `time <= time` becomes `activeKey`, the first other entry ends the loop
(`break`). -/
def scanKeyframes (time : ℚ) : List Keyframe → Option Keyframe → Option Keyframe
  | [], activeKey => activeKey
  | k :: rest, activeKey =>
    if k.time ≤ time then scanKeyframes time rest (some k) else activeKey

/-- Method `CameraRecorder.update(time)`: nothing unless playing with a non-empty
list; otherwise the scanned keyframe, if any, is made the active camera
(through `window.setActiveCamera` when installed, else by direct assignment
followed by a UI refresh when available) and its angles are written to the sliders. A
keyframe of this record type always carries its angles, so the test
`activeKey.pitch !== undefined` holds. -/
def update (time : ℚ) (s : Session) : Session :=
  if !s.isPlaying || s.keyframes.length == 0 then s
  else
    match scanKeyframes time s.keyframes none with
    | none => s
    | some activeKey =>
      let s1 :=
        if s.activeCamVal ≠ some activeKey.cameraName then
          if s.hasSetActiveCamera then setActiveCamera activeKey.cameraName s
          else
            let s0 := setWindowActiveCameraName (some activeKey.cameraName) s
            if s0.hasUpdateCameraManagerUI then updateCameraManagerUI s0 else s0
        else s
      { s1 with
        cameraPitch := activeKey.pitch, cameraYaw := activeKey.yaw,
        cameraRoll := activeKey.roll }

/-- The keyframe part of `CameraRecorder.loadJSON` for a document that has a
`keyframes` list: the list replaces the recorder's, playing on, recording off. -/
def loadKeyframes (keyframes : List Keyframe) (s : Session) : Session :=
  { s with keyframes := keyframes, isPlaying := true, isRecording := false }

/-- Function `startRace()`, on the session: refused when neither slot has a curve;
otherwise the race is on and the race clock is reset to `0` (each slot's
`raceState` is set to `startRaceState`). -/
def startRace (anyCurveAssigned : Bool) (s : Session) : Session :=
  if !anyCurveAssigned then s else { s with isRacing := true, raceTime := 0 }

/-- Function `resetRace()`, on the session: the race is off and the race clock is
reset to `0` (each assigned slot's `raceState` is set to `startRaceState`). -/
def resetRace (s : Session) : Session := { s with isRacing := false, raceTime := 0 }

/-- The race clock of `animate`: while racing, `raceTime += delta * 0.5`. -/
def advanceRaceTime (delta : ℚ) (s : Session) : Session :=
  if s.isRacing then { s with raceTime := s.raceTime + delta * (1 / 2) } else s

/-- The recorder calls of `animate`: playback is updated with the race time if
playing and racing, then angle changes are logged if recording and racing. -/
def recorderFrame (s : Session) : Session :=
  let s2 := if s.isPlaying && s.isRacing then update s.raceTime s else s
  if s2.isRecording && s2.isRacing then logAngles s2 else s2

/-- The part of `animate` that concerns the race clock and the recorder: the
clock advances by the capped frame time; then, when a followed car exists and
the free camera is off (`cameraLogic`), the recorder calls are made. -/
def animateFrame (elapsed : ℚ) (cameraLogic : Bool) (s : Session) : Session :=
  let s1 := advanceRaceTime (frameDelta elapsed) s
  if cameraLogic then recorderFrame s1 else s1

/-- The last entry, in list order, whose time is at most `time`. -/
def lastQualifying (time : ℚ) (keyframes : List Keyframe) : Option Keyframe :=
  (keyframes.filter (fun k => decide (k.time ≤ time))).getLast?

/-- The keyframe times are in non-decreasing order. -/
def TimeOrdered (keyframes : List Keyframe) : Prop :=
  keyframes.Pairwise (fun a b => a.time ≤ b.time)

instance (keyframes : List Keyframe) : Decidable (TimeOrdered keyframes) := by
  unfold TimeOrdered; infer_instance

/-- An operation that can happen while a recording is running. -/
inductive RecOp where
  | startRecording
  | frame (elapsed : ℚ) (cameraLogic : Bool)
  | selectCamera (name : Option String)
  | setCameraAngles (pitch yaw roll : ℚ)
  | logAngles
  | startRace (anyCurveAssigned : Bool)
  | resetRace
deriving DecidableEq, Repr

/-- The effect of one operation on the session. -/
def RecOp.apply : RecOp → Session → Session
  | .startRecording, s => PathRace.startRecording s
  | .frame elapsed cameraLogic, s => animateFrame elapsed cameraLogic s
  | .selectCamera name, s => PathRace.selectCamera name s
  | .setCameraAngles p y r, s => PathRace.setCameraAngles p y r s
  | .logAngles, s => PathRace.logAngles s
  | .startRace a, s => PathRace.startRace a s
  | .resetRace, s => PathRace.resetRace s

/-- A sequence of operations, first operation first. -/
def runOps : List RecOp → Session → Session
  | [], s => s
  | op :: rest, s => runOps rest (op.apply s)

/-! ## Path editor buttons and path library -/

/-- The click handler of the close-loop button: refused (alert, nothing changed)
with fewer than three waypoints; otherwise history is recorded,
`window.forceClosedLoop` is set and the preview line rebuilt. -/
def closeLoop (e : Editor) : Editor :=
  if e.waypoints.length < 3 then e
  else updateCurve { saveState e with forceClosedLoop := true }

/-- The click handler of the clear button: history is recorded, the waypoints
and the preview line are removed. The flag `window.forceClosedLoop` is not
touched. -/
def clearPath (e : Editor) : Editor :=
  { saveState e with waypoints := [], curveLine := none }

/-- An operation of the path editor. -/
inductive EditorOp where
  | addWaypoint (position : Vec3)
  | closeLoop
  | undo
  | redo
  | clear
deriving DecidableEq, Repr

/-- The effect of one editor operation (`addWaypoint` as called by a click on the
map, with history recording). -/
def EditorOp.apply : EditorOp → Editor → Editor
  | .addWaypoint position, e => PathRace.addWaypoint position true e
  | .closeLoop, e => PathRace.closeLoop e
  | .undo, e => PathRace.undo e
  | .redo, e => PathRace.redo e
  | .clear, e => clearPath e

/-- A sequence of editor operations, first operation first. -/
def runEditorOps : List EditorOp → Editor → Editor
  | [], e => e
  | op :: rest, e => runEditorOps rest (op.apply e)

/-- An entry of `storedPaths`: `{ name, points, isClosed }`. The points are
missing (`undefined`) when a loaded document had none. -/
structure StoredPath where
  name : String
  points : Option (List Vec3)
  isClosed : Bool
deriving DecidableEq, Repr

/-- The path manager's state: `storedPaths`, `selectedPathIndex` and
`editingPathIndex` (`-1` is `none`). -/
structure PathLibrary where
  storedPaths : List StoredPath
  selectedPathIndex : Option Nat
  editingPathIndex : Option Nat
deriving DecidableEq, Repr

/-- The path manager before any path is saved or loaded. -/
def PathLibrary.init : PathLibrary :=
  { storedPaths := [], selectedPathIndex := none, editingPathIndex := none }

/-- The entry written by the save button:
`{ name, points: waypoints.map(...), isClosed: !!window.forceClosedLoop }`. -/
def savedEntry (name : String) (e : Editor) : StoredPath :=
  { name := name, points := some e.waypoints, isClosed := e.forceClosedLoop }

/-- The "save as new" branch of the save button: `prompt` returns `null` on
cancel (`none`); an empty name is falsy and saves nothing. -/
def saveAsNew (promptName : Option String) (e : Editor) (lib : PathLibrary) : PathLibrary :=
  match promptName with
  | none => lib
  | some name =>
    if name = "" then lib
    else
      { lib with
        storedPaths := lib.storedPaths ++ [savedEntry name e], editingPathIndex := none }

/-- The click handler of the save button: refused with fewer than two
waypoints; when a stored path is being edited and the user confirms, that
entry is overwritten under its old name; otherwise the path is saved as new
under the prompted name. -/
def savePath (confirmOverwrite : Bool) (promptName : Option String) (e : Editor)
    (lib : PathLibrary) : PathLibrary :=
  if e.waypoints.length < 2 then lib
  else
    match lib.editingPathIndex with
    | none => saveAsNew promptName e lib
    | some i =>
      match lib.storedPaths.get? i with
      | none => lib
      | some original =>
        if confirmOverwrite then
          { lib with
            storedPaths := lib.storedPaths.set i (savedEntry original.name e),
            editingPathIndex := none }
        else saveAsNew promptName e lib

/-- What `JSON.parse` can return for a path file: `null`, a top-level array of
points, an object (with or without `points` and `isClosed`), or a number,
string or boolean. -/
inductive PathDoc where
  | null
  | array (points : List Vec3)
  | object (points : Option (List Vec3)) (isClosed : Option Bool)
  | scalar
deriving DecidableEq, Repr

/-- The `reader.onload` callback of the path file input, for one file (`fileName`
is its name without ".json") whose text parsed to `parsed` (`none` when
`JSON.parse` throws): inside the `try`,
`points` is the array itself or `saveData.points`, `isClosed` is
`saveData.isClosed || false`, and an entry is pushed; reading a property of
`null` throws and is caught. -/
def loadPathFile (fileName : String) (parsed : Option PathDoc) (lib : PathLibrary) :
    PathLibrary :=
  match parsed with
  | none => lib
  | some PathDoc.null => lib
  | some (PathDoc.array points) =>
    { lib with storedPaths := lib.storedPaths ++ [⟨fileName, some points, false⟩] }
  | some (PathDoc.object points isClosed) =>
    { lib with storedPaths := lib.storedPaths ++ [⟨fileName, points, isClosed.getD false⟩] }
  | some PathDoc.scalar =>
    { lib with storedPaths := lib.storedPaths ++ [⟨fileName, none, false⟩] }

/-! ## Vehicles: assignment, free-roam physics, manual drive -/

/-- A `THREE.Quaternion` with exact components. -/
structure Quat where
  x : ℚ
  y : ℚ
  z : ℚ
  w : ℚ
deriving DecidableEq, Repr

/-- What the physics and the assignment use of a car group: its position, its
orientation, `userData.velocity` and `userData.groundOffset` (possibly unset). -/
structure Car where
  position : Vec3
  orientation : Quat
  velocity : Vec3
  groundOffset : Option ℚ
deriving DecidableEq, Repr

/-- An entry of `assignedPaths`: the curve (given by its control points and its
`closed` flag), the points, and `raceState` when present. -/
structure AssignedPath where
  curve : Option CurveLine
  points : List Vec3
  raceState : Option RaceState
deriving DecidableEq, Repr

/-- The entry `{ curve: null, line: null, points: [] }`. -/
def AssignedPath.empty : AssignedPath := { curve := none, points := [], raceState := none }

/-- The library calls made on a curve during an assignment: whether
`curve.getPoints(200)` returns (`false` when it throws), `curve.getPointAt(u)`
(`none` when it throws), and the orientation produced by `lookAt` for a car at
a position looking at a target. -/
structure CurveLib where
  getPoints : CurveLine → Bool
  getPointAt : CurveLine → ℚ → Option Vec3
  lookAt : Vec3 → Vec3 → Quat

/-- Function `assignPathFromData(carName, pathData, color)` on the slot and its car
(`none` when the car is not loaded): the curve is built from the stored points
and the stored `isClosed`, sampled for the line, the slot is replaced by
`{ curve, line, points }`, and the car is teleported to the start, turned
towards `getPointAt(0.01)` and stopped. There is no test on the number of
points; a library call that throws ends the function where it stands. -/
def assignPathFromData (lib : CurveLib) (pathData : StoredPath) (slot : AssignedPath)
    (car : Option Car) : AssignedPath × Option Car :=
  match pathData.points with
  | none => (slot, car)
  | some points =>
    let curve : CurveLine := { points := points, closed := pathData.isClosed }
    if !lib.getPoints curve then (slot, car)
    else
      let slot1 : AssignedPath := { curve := some curve, points := points, raceState := none }
      match car with
      | none => (slot1, none)
      | some c =>
        match lib.getPointAt curve 0 with
        | none => (slot1, some c)
        | some start =>
          let c1 := { c with position := start }
          match lib.getPointAt curve (1 / 100) with
          | none => (slot1, some c1)
          | some target =>
            (slot1, some { c1 with orientation := lib.lookAt start target,
                                   velocity := ⟨0, 0, 0⟩ })

/-- Function `assignPath(carName, color)`, the assignment from the live editor:
refused (alert) with fewer than two waypoints; otherwise as
`assignPathFromData` on the waypoint positions with an open curve. -/
def assignPath (lib : CurveLib) (e : Editor) (slot : AssignedPath) (car : Option Car) :
    AssignedPath × Option Car :=
  if e.waypoints.length < 2 then (slot, car)
  else assignPathFromData lib ⟨"", some e.waypoints, false⟩ slot car

/-- The constant `gravity = 20.0`. -/
def gravity : ℚ := 20

/-- The first intersection of a downward ray with the map: `hit.distance` and
`hit.point.y`. -/
structure Hit where
  distance : ℚ
  pointY : ℚ
deriving DecidableEq, Repr

/-- The first part of the free-roam physics of `animate` for one car, given the
ground query (downward ray from an origin; `none` when nothing is hit):
gravity, movement, and the ground snap when the hit is within
`1.0 + offset + 0.1` of the ray origin and the car is not rising. The result
is the position and the velocity before the fall-through test. -/
def freeRoamSnap (ground : Vec3 → Option Hit) (delta : ℚ) (car : Car) : Vec3 × Vec3 :=
  let velocity : Vec3 := { car.velocity with y := car.velocity.y - gravity * delta }
  let position : Vec3 :=
    { x := car.position.x + velocity.x * delta, y := car.position.y + velocity.y * delta,
      z := car.position.z + velocity.z * delta }
  let rayOrigin : Vec3 := { position with y := position.y + 1 }
  match ground rayOrigin with
  | none => (position, velocity)
  | some hit =>
    let offset := car.groundOffset.getD 0
    if hit.distance ≤ 1 + offset + 1 / 10 ∧ velocity.y ≤ 0 then
      ({ position with y := hit.pointY + offset }, { velocity with y := 0 })
    else (position, velocity)

/-- The free-roam physics of `animate` for one car: integration and ground snap,
then the reset to height `10` with zero velocity when the car is below `-50`. -/
def freeRoamStep (ground : Vec3 → Option Hit) (delta : ℚ) (car : Car) : Car :=
  let snapped := freeRoamSnap ground delta car
  if snapped.1.y < -50 then
    { car with position := { snapped.1 with y := 10 }, velocity := ⟨0, 0, 0⟩ }
  else { car with position := snapped.1, velocity := snapped.2 }

/-- The physics block of `animate`: every car takes a free-roam step, but only
when no race is running, at least one car is loaded and the map is loaded. -/
def freeRoamFrame (isRacing : Bool) (mapLoaded : Bool) (ground : Vec3 → Option Hit)
    (delta : ℚ) (cars : List Car) : List Car :=
  if !isRacing && decide (0 < cars.length) && mapLoaded then
    cars.map (freeRoamStep ground delta)
  else cars

/-- Consecutive free-roam steps of one car, one per frame time. -/
def freeRoamSteps (ground : Vec3 → Option Hit) : List ℚ → Car → Car
  | [], car => car
  | delta :: rest, car => freeRoamSteps ground rest (freeRoamStep ground delta car)

/-- The record `driveConfig`. -/
structure DriveConfig where
  acceleration : ℚ
  maxSpeed : ℚ
  steerSpeed : ℚ
  friction : ℚ
deriving DecidableEq, Repr

/-- The values `{ acceleration: 0.5, maxSpeed: 35, steerSpeed: 2.0, friction: 0.98 }`. -/
def driveConfig : DriveConfig :=
  { acceleration := 1 / 2, maxSpeed := 35, steerSpeed := 2, friction := 98 / 100 }

/-- The acceleration / braking of the manual drive: `w` accelerates up to
`maxSpeed`, otherwise `s` brakes twice as hard down to `-maxSpeed * 0.5`,
otherwise the speed is multiplied by the friction and set to `0` when its
absolute value is under `0.01`. -/
def driveSpeed (cfg : DriveConfig) (w s : Bool) (delta currentSpeed : ℚ) : ℚ :=
  if w then min (currentSpeed + cfg.acceleration * delta) cfg.maxSpeed
  else if s then max (currentSpeed - cfg.acceleration * delta * 2) (-cfg.maxSpeed * (1 / 2))
  else
    if |currentSpeed * cfg.friction| < 1 / 100 then 0 else currentSpeed * cfg.friction

/-- The steering of the manual drive: the input is `1` for `a`, `-1` for `d`
(`d` wins when both are held) and the steer value moves a tenth of the way
towards it. -/
def driveSteer (a d : Bool) (currentSteerVal : ℚ) : ℚ :=
  let steerInput : ℚ := if d then -1 else if a then 1 else 0
  lerp currentSteerVal steerInput (1 / 10)

/-! ## Camera definitions and `CameraRecorder.loadJSON` -/

/-- An entry of `car.userData.cameras`: `{ name, offset, rotation }`. -/
structure CameraDefinition where
  name : String
  offset : Vec3
  rotation : Quat
deriving DecidableEq, Repr

/-- The Euler angles `{ pitch, yaw, roll }` of a serialized rotation. -/
structure EulerAngles where
  pitch : ℚ
  yaw : ℚ
  roll : ℚ
deriving DecidableEq, Repr

/-- A definition as found in a document: `offset` or `rotation` may be missing. -/
structure CameraDefinitionDoc where
  name : String
  offset : Option Vec3
  rotation : Option EulerAngles
deriving DecidableEq, Repr

/-- What `loadJSON` reads of a parsed document: `type`, `cameraDefinitions` and
`keyframes`, each possibly missing. -/
structure CameraDoc where
  docType : Option String
  cameraDefinitions : Option (List CameraDefinitionDoc)
  keyframes : Option (List Keyframe)
deriving DecidableEq, Repr

/-- The recorder's session together with the camera list of the active car
(`none` when `cars[activeCarIndex]` does not exist; a car without a list has
the empty list). -/
structure Studio where
  session : Session
  cameras : Option (List CameraDefinition)
deriving DecidableEq, Repr

/-- The store of one loaded definition: the entry with the same name is replaced
(`findIndex`, first match), otherwise the definition is pushed. -/
def upsertCamera (cam : CameraDefinition) : List CameraDefinition → List CameraDefinition
  | [] => [cam]
  | c :: rest => if c.name = cam.name then cam :: rest else c :: upsertCamera cam rest

/-- The loop `data.cameraDefinitions.forEach(...)` of `loadJSON`, with
`quatOfEuler` for `new THREE.Quaternion().setFromEuler(new THREE.Euler(pitch, yaw, roll, 'YXZ'))`:
each definition is stored in turn; reading `def.rotation.pitch` or
`def.offset.x` of a missing field throws, which ends the loop with the flag
`false` and keeps what was stored so far. -/
def applyDefinitions (quatOfEuler : EulerAngles → Quat) :
    List CameraDefinitionDoc → List CameraDefinition → List CameraDefinition × Bool
  | [], cams => (cams, true)
  | d :: rest, cams =>
    match d.rotation, d.offset with
    | some rotation, some offset =>
      applyDefinitions quatOfEuler rest
        (upsertCamera { name := d.name, offset := offset, rotation := quatOfEuler rotation } cams)
    | _, _ => (cams, false)

/-- Method `CameraRecorder.loadJSON(json)` (`none` when the text does not parse to
an object): nothing without an active car; the definitions are loaded when the type is
"CameraConfigs" or `cameraDefinitions` is present, then the UI is refreshed;
the keyframes are loaded when the type is "RaceReplay" or `keyframes` is
present. An exception in the first part ends the method before the second. -/
def loadJSON (quatOfEuler : EulerAngles → Quat) (json : Option CameraDoc) (w : Studio) :
    Studio :=
  match json, w.cameras with
  | none, _ => w
  | some _, none => w
  | some data, some cams =>
    let replay (w1 : Studio) : Studio :=
      if data.docType = some "RaceReplay" ∨ data.keyframes.isSome then
        match data.keyframes with
        | some keyframes => { w1 with session := loadKeyframes keyframes w1.session }
        | none => w1
      else w1
    if data.docType = some "CameraConfigs" ∨ data.cameraDefinitions.isSome then
      match data.cameraDefinitions with
      | none => w
      | some defs =>
        match applyDefinitions quatOfEuler defs cams with
        | (cams1, false) => { w with cameras := some cams1 }
        | (cams1, true) =>
          replay
            { session :=
                if w.session.hasUpdateCameraManagerUI then updateCameraManagerUI w.session
                else w.session,
              cameras := some cams1 }
    else replay w

/-- An operation on the recorder. -/
inductive RecorderOp where
  | startRecording
  | stopRecording
  | loadJSON (json : Option CameraDoc)
  | update (time : ℚ)
  | logSwitch (cameraName : String)
  | logAngles
deriving DecidableEq, Repr

/-- The effect of one recorder operation. -/
def RecorderOp.apply (quatOfEuler : EulerAngles → Quat) : RecorderOp → Studio → Studio
  | .startRecording, w => { w with session := PathRace.startRecording w.session }
  | .stopRecording, w => { w with session := PathRace.stopRecording w.session }
  | .loadJSON json, w => PathRace.loadJSON quatOfEuler json w
  | .update time, w => { w with session := PathRace.update time w.session }
  | .logSwitch cameraName, w => { w with session := PathRace.logSwitch cameraName w.session }
  | .logAngles, w => { w with session := PathRace.logAngles w.session }

/-- A sequence of recorder operations, first operation first. -/
def runRecorderOps (quatOfEuler : EulerAngles → Quat) : List RecorderOp → Studio → Studio
  | [], w => w
  | op :: rest, w => runRecorderOps quatOfEuler rest (op.apply quatOfEuler w)

/-! ## Wheel rig -/

/-- The name of a rotation axis, as stored in `rotationSettings`. -/
inductive Axis where
  | x
  | y
  | z
deriving DecidableEq, Repr

/-- The record `rotationSettings = { spinAxis, steerAxis }` of a car. -/
structure RotationSettings where
  spinAxis : Axis
  steerAxis : Axis
deriving DecidableEq, Repr

/-- The value `{ spinAxis: 'x', steerAxis: 'y' }`: what both cars are given when
loaded, and the default used when a car has no settings. -/
def defaultRotationSettings : RotationSettings := { spinAxis := Axis.x, steerAxis := Axis.y }

/-- The component `rotation[axis]` of an Euler rotation. -/
def Vec3.getAxis (r : Vec3) : Axis → ℚ
  | Axis.x => r.x
  | Axis.y => r.y
  | Axis.z => r.z

/-- The assignment `rotation[axis] = value`. -/
def Vec3.setAxis (r : Vec3) (axis : Axis) (value : ℚ) : Vec3 :=
  match axis with
  | Axis.x => { r with x := value }
  | Axis.y => { r with y := value }
  | Axis.z => { r with z := value }

/-- An entry of `userData.wheels`: the Euler rotation of the wheel object (`mesh`)
and of the steering pivot that contains it (`pivot`), two distinct objects. -/
structure Wheel where
  mesh : Vec3
  pivot : Vec3
deriving DecidableEq, Repr

/-- The object `userData.wheels`: the wheels found in the model under the keys
`fl`, `fr` and `rear`. -/
structure WheelRig where
  fl : Option Wheel
  fr : Option Wheel
  rear : Option Wheel
deriving DecidableEq, Repr

/-- The statement `wheel.mesh.rotation[spinAxis] += amount`. -/
def Wheel.spin (axis : Axis) (amount : ℚ) (wheel : Wheel) : Wheel :=
  { wheel with mesh := wheel.mesh.setAxis axis (wheel.mesh.getAxis axis + amount) }

/-- The statement `wheel.pivot.rotation[steerAxis] = angle`. -/
def Wheel.steer (axis : Axis) (angle : ℚ) (wheel : Wheel) : Wheel :=
  { wheel with pivot := wheel.pivot.setAxis axis angle }

/-- The wheel animation shared by the race frame and the manual-drive frame, for
a spin amount and a steer angle: front-left mesh `+=`, front-right mesh `-=`,
rear mesh `-=`, then the front-left and front-right pivots are set. -/
def animateWheels (settings : Option RotationSettings) (spinAmount steerAngle : ℚ)
    (wheels : WheelRig) : WheelRig :=
  let s := settings.getD defaultRotationSettings
  { fl := (wheels.fl.map (Wheel.spin s.spinAxis spinAmount)).map (Wheel.steer s.steerAxis steerAngle),
    fr := (wheels.fr.map (Wheel.spin s.spinAxis (-spinAmount))).map
      (Wheel.steer s.steerAxis steerAngle),
    rear := wheels.rear.map (Wheel.spin s.spinAxis (-spinAmount)) }

/-- The wheel animation of a race frame, on the race state just updated:
`wheelSpinSpeed = state.speed * 0.5 * delta`, `steerAngle = state.currentDrift * 0.5`;
nothing when the car has no `wheels`. -/
def raceWheelFrame (settings : Option RotationSettings) (state : RaceState) (delta : ℚ)
    (wheels : Option WheelRig) : Option WheelRig :=
  wheels.map (animateWheels settings (state.speed * (1 / 2) * delta)
    (state.currentDrift.getD 0 * (1 / 2)))

/-- The wheel animation of a manual-drive frame, on the speed and steer value just
updated: `wheelRotationSpeed = currentSpeed * 5 * delta`,
`steerAngle = currentSteerVal * 0.5`; nothing when the car has no `wheels`. -/
def manualWheelFrame (settings : Option RotationSettings) (currentSpeed currentSteerVal : ℚ)
    (delta : ℚ) (wheels : Option WheelRig) : Option WheelRig :=
  wheels.map (animateWheels settings (currentSpeed * 5 * delta) (currentSteerVal * (1 / 2)))

/-- A race frame of one car with an assigned curve: the race state is updated
and the wheels are animated from the new state. -/
def raceCarFrame (cfg : RaceConfig) (curve : Curve3) (delta : ℚ)
    (settings : Option RotationSettings) (state : RaceState) (wheels : Option WheelRig) :
    RaceState × Option WheelRig :=
  let state1 := raceStep cfg curve delta state
  (state1, raceWheelFrame settings state1 delta wheels)

/-- A manual-drive frame of the active car, as far as speed, steer value and
wheels go: the speed and the steer value are updated from the keys and the
wheels are animated from the new values (the car's own translation and yaw
read these values and do not change them). -/
def manualDriveFrame (cfg : DriveConfig) (w a s d : Bool) (delta : ℚ)
    (settings : Option RotationSettings) (currentSpeed currentSteerVal : ℚ)
    (wheels : Option WheelRig) : ℚ × ℚ × Option WheelRig :=
  let speed1 := driveSpeed cfg w s delta currentSpeed
  let steer1 := driveSteer a d currentSteerVal
  (speed1, steer1, manualWheelFrame settings speed1 steer1 delta wheels)

/-- The click handler of the edit-selected button (`confirmed` is the answer to
the confirmation dialog): nothing without a selection or without
confirmation; otherwise the live waypoints are cleared, the stored points are
re-added through `addWaypoint(vec, false)`, `window.forceClosedLoop` takes the
stored `isClosed`, the curve is rebuilt and the path is marked as being
edited. A selected entry that does not exist, or has no points, throws. -/
def editSelected (confirmed : Bool) (e : Editor) (lib : PathLibrary) : Editor × PathLibrary :=
  match lib.selectedPathIndex with
  | none => (e, lib)
  | some i =>
    match lib.storedPaths.get? i with
    | none => (e, lib)
    | some pathData =>
      if !confirmed then (e, lib)
      else
        match pathData.points with
        | none => ({ e with waypoints := [] }, lib)
        | some points =>
          let loaded := points.foldl (fun acc pos => addWaypoint pos false acc)
            { e with waypoints := [] }
          (updateCurve { loaded with forceClosedLoop := pathData.isClosed },
            { lib with editingPathIndex := some i })

/-! ## Camera manager: saving, overwriting and activating a camera -/

/-- Library method `Quaternion.multiply`: the Hamilton product `a · b`. -/
def Quat.mul (a b : Quat) : Quat :=
  { x := a.x * b.w + a.w * b.x + a.y * b.z - a.z * b.y,
    y := a.y * b.w + a.w * b.y + a.z * b.x - a.x * b.z,
    z := a.z * b.w + a.w * b.z + a.x * b.y - a.y * b.x,
    w := a.w * b.w - a.x * b.x - a.y * b.y - a.z * b.z }

/-- Library method `Quaternion.invert`: the conjugate (the library takes the
quaternion to have unit length). -/
def Quat.invert (q : Quat) : Quat := { x := -q.x, y := -q.y, z := -q.z, w := q.w }

/-- The squared length of a quaternion. -/
def Quat.normSq (q : Quat) : ℚ := q.x * q.x + q.y * q.y + q.z * q.z + q.w * q.w

/-- Library method `Vector3.applyQuaternion`: `v + q.w·t + q.xyz × t` with
`t = 2·(q.xyz × v)` (the library takes the quaternion to have unit length). -/
def Vec3.applyQuaternion (v : Vec3) (q : Quat) : Vec3 :=
  let tx := 2 * (q.y * v.z - q.z * v.y)
  let ty := 2 * (q.z * v.x - q.x * v.z)
  let tz := 2 * (q.x * v.y - q.y * v.x)
  { x := v.x + q.w * tx + q.y * tz - q.z * ty,
    y := v.y + q.w * ty + q.z * tx - q.x * tz,
    z := v.z + q.w * tz + q.x * ty - q.y * tx }

/-- Library method `Vector3.sub`. -/
def Vec3.sub (a b : Vec3) : Vec3 := { x := a.x - b.x, y := a.y - b.y, z := a.z - b.z }

/-- Library method `Vector3.add`. -/
def Vec3.add (a b : Vec3) : Vec3 := { x := a.x + b.x, y := a.y + b.y, z := a.z + b.z }

/-- A position and an orientation, of a car or of the camera. -/
structure Pose where
  position : Vec3
  quaternion : Quat
deriving DecidableEq, Repr

/-- The relative pose computed by the save and overwrite buttons:
`relativePos = (camera.position - car.position)` rotated by the inverted car
quaternion, `relativeRot = inverted car quaternion · camera quaternion`. -/
def relativePose (car camera : Pose) : Vec3 × Quat :=
  ((camera.position.sub car.position).applyQuaternion car.quaternion.invert,
    car.quaternion.invert.mul camera.quaternion)

/-- The name used by the save button: the trimmed input, or `Camera N` with `N`
one more than the number of cameras when the input is empty. -/
def cameraSaveName (input : String) (cams : List CameraDefinition) : String :=
  if input = "" then "Camera " ++ toString (cams.length + 1) else input

/-- The click handler of the save-camera button (`input` is the trimmed text of
the name input): nothing without an active car; a name already in the list
is refused (alert); otherwise the relative pose is pushed under the name, the
camera becomes the active one and the UI is refreshed. -/
def saveCamera (input : String) (car camera : Pose) (w : Studio) : Studio :=
  match w.cameras with
  | none => w
  | some cams =>
    let name := cameraSaveName input cams
    if cams.any (fun c => decide (c.name = name)) then w
    else
      { session := updateCameraManagerUI { w.session with activeCameraName := some name },
        cameras := some (cams ++
          [{ name := name, offset := (relativePose car camera).1,
             rotation := (relativePose car camera).2 }]) }

/-- The overwrite of the first camera named `active` by a new relative pose,
renamed to the trimmed input when that is non-empty and differs from `active`.
The result is `none` when no camera has that name (`findIndex` gives `-1`). -/
def overwriteFirst (active input : String) (rel : Vec3 × Quat) :
    List CameraDefinition → Option (List CameraDefinition)
  | [] => none
  | c :: rest =>
    if c.name = active then
      some ({ name := if input ≠ "" ∧ input ≠ active then input else c.name,
              offset := rel.1, rotation := rel.2 } :: rest)
    else (overwriteFirst active input rel rest).map (fun l => c :: l)

/-- The click handler of the overwrite button: nothing without an active car or
without an active camera name (`null` and the empty string are falsy), nothing
when no camera has the active name; otherwise that camera takes the new
relative pose and, when the name input holds another name, that name, which
also becomes the active name; then the UI is refreshed. The new name is not
compared with the names in the list. -/
def overwriteCamera (input : String) (car camera : Pose) (w : Studio) : Studio :=
  match w.cameras, w.session.activeCameraName with
  | some cams, some active =>
    if active = "" then w
    else
      match overwriteFirst active input (relativePose car camera) cams with
      | none => w
      | some cams1 =>
        { session := updateCameraManagerUI
            { w.session with
              activeCameraName :=
                some (if input ≠ "" ∧ input ≠ active then input else active) },
          cameras := some cams1 }
  | _, _ => w

/-- The values `Math.sin(rad / 2)` and `Math.cos(rad / 2)` for the angle
`rad = degToRad(degrees)`, as functions of the slider value in degrees. -/
structure HalfAngleTrig where
  sinHalf : ℚ → ℚ
  cosHalf : ℚ → ℚ

/-- Library method `Object3D.rotateOnAxis(axis, angle)` on the quaternion:
multiplication on the right by the axis-angle quaternion
`(axis·sin(angle/2), cos(angle/2))`. -/
def rotateOnAxis (trig : HalfAngleTrig) (axis : Vec3) (degrees : ℚ) (q : Quat) : Quat :=
  q.mul { x := axis.x * trig.sinHalf degrees, y := axis.y * trig.sinHalf degrees,
          z := axis.z * trig.sinHalf degrees, w := trig.cosHalf degrees }

/-- The custom camera pose of `animate` for a camera definition: the stored
offset rotated by the car quaternion and added to the car position, the car
quaternion times the stored rotation, then `rotateY(yaw)`, `rotateX(pitch)`,
`rotateZ(roll)` with the slider angles. -/
def customCameraPose (trig : HalfAngleTrig) (car : Pose) (camData : CameraDefinition)
    (pitch yaw roll : ℚ) : Pose :=
  { position := (camData.offset.applyQuaternion car.quaternion).add car.position,
    quaternion :=
      rotateOnAxis trig ⟨0, 0, 1⟩ roll
        (rotateOnAxis trig ⟨1, 0, 0⟩ pitch
          (rotateOnAxis trig ⟨0, 1, 0⟩ yaw (car.quaternion.mul camData.rotation))) }

/-- The camera selection of `animate`: with a truthy `window.activeCameraName` and
a camera of that name in the followed car's list (`find`, first match), the
custom pose of that camera; otherwise `none` (the default chase camera is
used). -/
def activeCameraPose (trig : HalfAngleTrig) (car : Pose) (w : Studio) : Option Pose :=
  match w.session.activeCamVal, w.cameras with
  | some name, some cams =>
    if name = "" then none
    else
      (cams.find? (fun c => decide (c.name = name))).map
        (fun camData => customCameraPose trig car camData w.session.cameraPitch
          w.session.cameraYaw w.session.cameraRoll)
  | _, _ => none

/-- The floor constraint at the end of `animate`, given the terrain height found
under the camera (`none` without map or without hit): a camera lower than
`1.2` above the terrain is lifted to that height. -/
def cameraFloorClamp (groundHeight : Option ℚ) (camera : Pose) : Pose :=
  match groundHeight with
  | none => camera
  | some height =>
    if camera.position.y < height + 6 / 5 then
      { camera with position := { camera.position with y := height + 6 / 5 } }
    else camera

/-- An operation on the camera definitions of a vehicle. -/
inductive CameraOp where
  | save (input : String) (car camera : Pose)
  | overwrite (input : String) (car camera : Pose)
  | load (json : Option CameraDoc)
deriving DecidableEq, Repr

/-- The effect of one camera operation. -/
def CameraOp.apply (quatOfEuler : EulerAngles → Quat) : CameraOp → Studio → Studio
  | .save input car camera, w => saveCamera input car camera w
  | .overwrite input car camera, w => overwriteCamera input car camera w
  | .load json, w => loadJSON quatOfEuler json w

/-- A sequence of camera operations, first operation first. -/
def runCameraOps (quatOfEuler : EulerAngles → Quat) : List CameraOp → Studio → Studio
  | [], w => w
  | op :: rest, w => runCameraOps quatOfEuler rest (op.apply quatOfEuler w)

/-! ## Specification-level notions -/

/-- The lift applied by `addWaypoint` to every position it is given. -/
def lift (p : Vec3) : Vec3 := { x := p.x, y := p.y + 1 / 2, z := p.z }

/-- The longest initial run of entries whose time is at most `time`: what the
scan loop of `update` visits before its `break`. -/
def qualifyingRun (time : ℚ) (keyframes : List Keyframe) : List Keyframe :=
  keyframes.takeWhile (fun k => decide (k.time ≤ time))

/-- What holds of the camera-manager globals in every session the script can
reach: `window.updateCameraManagerUI` is assigned right before the first call
of `updateCameraManagerUI`, which installs `window.setActiveCamera`; and every
assignment to the closure variable `activeCameraName` is followed by
`updateCameraManagerUI()`, which copies it to `window.activeCameraName`. -/
def Session.Consistent (s : Session) : Prop :=
  (s.hasUpdateCameraManagerUI = true → s.hasSetActiveCamera = true) ∧
  (s.hasSetActiveCamera = true → s.activeCameraName = s.activeCamVal)

instance (s : Session) : Decidable s.Consistent := by
  unfold Session.Consistent; infer_instance

/-- The keyframe appended by `logAngles`: the time stamp, the active camera name
or "Default Chase", and the slider angles. -/
def Session.angleKeyframe (s : Session) : Keyframe :=
  { time := s.recordTime, cameraName := orDefaultChase s.activeCamVal,
    pitch := s.cameraPitch, yaw := s.cameraYaw, roll := s.cameraRoll }

/-- At least one slider angle is `0.5` or more away from the given keyframe's. -/
def Session.angleMoved (s : Session) (lastKf : Keyframe) : Prop :=
  1 / 2 ≤ |lastKf.pitch - s.cameraPitch| ∨ 1 / 2 ≤ |lastKf.yaw - s.cameraYaw| ∨
    1 / 2 ≤ |lastKf.roll - s.cameraRoll|

/-- An operation that does not put the race clock back: a frame has a
non-negative elapsed time, and `startRace` / `resetRace` happen only while no
race is running (the recorder's time stamp is `0` then, before and after). -/
def RecOp.keepsClock : RecOp → Session → Bool
  | .frame elapsed _, _ => decide (0 ≤ elapsed)
  | .startRace _, s => !s.isRacing
  | .resetRace, s => !s.isRacing
  | _, _ => true

/-- Every operation of the sequence keeps the clock, in the session it is
applied to. -/
def keepClock : List RecOp → Session → Bool
  | [], _ => true
  | op :: rest, s => op.keepsClock s && keepClock rest (op.apply s)

/-- The keyframes are time-ordered and none is later than the recorder's
current time stamp. -/
def Session.ClockInv (s : Session) : Prop :=
  TimeOrdered s.keyframes ∧ ∀ k ∈ s.keyframes, k.time ≤ s.recordTime

/-- Session `s2` has the race clock of `s1` and the keyframes of `s1` followed by
further keyframes stamped with the current time. -/
def Session.Extends (s1 s2 : Session) : Prop :=
  s2.isRacing = s1.isRacing ∧ s2.raceTime = s1.raceTime ∧
    ∃ extra : List Keyframe, s2.keyframes = s1.keyframes ++ extra ∧
      ∀ k ∈ extra, k.time = s1.recordTime

/-- Recording and playing are not both on. -/
def Session.Exclusive (s : Session) : Prop := ¬ (s.isRecording = true ∧ s.isPlaying = true)

/-- Session `s2` has the recording and playing flags of `s1`. -/
def Session.SameFlags (s1 s2 : Session) : Prop :=
  s2.isRecording = s1.isRecording ∧ s2.isPlaying = s1.isPlaying

/-- A curve library on which a closed curve through a single point can be
sampled (its index arithmetic wraps modulo the number of points, so every
sample is that point) and every curve through two or more points can be
sampled, starting at its first point. -/
def wrappingLib : CurveLib :=
  { getPoints := fun c => (c.closed && decide (c.points.length = 1)) || decide (2 ≤ c.points.length),
    getPointAt := fun c _ => c.points.head?,
    lookAt := fun _ _ => ⟨0, 0, 0, 1⟩ }

/-- The flat ground at height `0`: a downward ray from an origin above it hits
it at a distance equal to the origin's height; from below nothing is hit. -/
def flatGround (origin : Vec3) : Option Hit :=
  if 0 < origin.y then some { distance := origin.y, pointY := 0 } else none

/-- Two optional wheels are both absent, or both present and related by `R`. -/
def wheelRel (R : Wheel → Wheel → Prop) : Option Wheel → Option Wheel → Prop
  | some before, some after => R before after
  | none, none => True
  | _, _ => False

/-- The separation of steering and spinning on one wheel, before and after a
frame: of the mesh only the spin-axis rotation may have changed, so its
steer-axis rotation is the same; the pivot's spin-axis rotation is the same;
and of the pivot only the steer-axis rotation may have changed for a front
wheel, nothing at all for the rear wheel. -/
def WheelSeparated (front : Bool) (settings : RotationSettings) (before after : Wheel) : Prop :=
  (∀ axis : Axis, axis ≠ settings.spinAxis →
    after.mesh.getAxis axis = before.mesh.getAxis axis) ∧
  after.mesh.getAxis settings.steerAxis = before.mesh.getAxis settings.steerAxis ∧
  after.pivot.getAxis settings.spinAxis = before.pivot.getAxis settings.spinAxis ∧
  (if front then
    ∀ axis : Axis, axis ≠ settings.steerAxis →
      after.pivot.getAxis axis = before.pivot.getAxis axis
  else after.pivot = before.pivot)

/-- The separation of steering and spinning on a whole rig. -/
def RigSeparated (settings : RotationSettings) (before after : WheelRig) : Prop :=
  wheelRel (WheelSeparated true settings) before.fl after.fl ∧
  wheelRel (WheelSeparated true settings) before.fr after.fr ∧
  wheelRel (WheelSeparated false settings) before.rear after.rear

/-- A wheel after a frame: its mesh's spin-axis rotation has advanced by `amount`
and nothing else of the mesh has changed; when `steer` is an angle, the
pivot's steer-axis rotation is that angle. -/
def WheelMoved (settings : RotationSettings) (amount : ℚ) (steer : Option ℚ)
    (before after : Wheel) : Prop :=
  after.mesh = before.mesh.setAxis settings.spinAxis
    (before.mesh.getAxis settings.spinAxis + amount) ∧
  match steer with
  | some angle => after.pivot = before.pivot.setAxis settings.steerAxis angle
  | none => after.pivot = before.pivot

/-- A rig after a frame with spin amount `amount` and steer angle `angle`, as the
code moves it: front-left mesh by `+amount`, front-right and rear mesh by
`-amount`, the two front pivots set to `angle`, the rear pivot untouched. -/
def RigMoved (settings : RotationSettings) (amount angle : ℚ) (before after : WheelRig) : Prop :=
  wheelRel (WheelMoved settings amount (some angle)) before.fl after.fl ∧
  wheelRel (WheelMoved settings (-amount) (some angle)) before.fr after.fr ∧
  wheelRel (WheelMoved settings (-amount) none) before.rear after.rear

/-- A rig with the three wheels present and every rotation `0`. -/
def restingRig : WheelRig :=
  { fl := some ⟨⟨0, 0, 0⟩, ⟨0, 0, 0⟩⟩, fr := some ⟨⟨0, 0, 0⟩, ⟨0, 0, 0⟩⟩,
    rear := some ⟨⟨0, 0, 0⟩, ⟨0, 0, 0⟩⟩ }

/-! # Theorems -/

/-! ## Path editor: undo / redo -/

theorem updateCurve_waypoints (e : Editor) : (updateCurve e).waypoints = e.waypoints := by
  unfold updateCurve
  split <;> rfl

theorem updateCurve_undoStack (e : Editor) : (updateCurve e).undoStack = e.undoStack := by
  unfold updateCurve
  split <;> rfl

theorem updateCurve_redoStack (e : Editor) : (updateCurve e).redoStack = e.redoStack := by
  unfold updateCurve
  split <;> rfl

theorem addWaypoint_false_waypoints (p : Vec3) (e : Editor) :
    (addWaypoint p false e).waypoints = e.waypoints ++ [lift p] := by
  simp [addWaypoint, updateCurve_waypoints, lift]

theorem foldl_addWaypoint_waypoints (state : List Vec3) (e : Editor) :
    (state.foldl (fun acc pos => addWaypoint pos false acc) e).waypoints =
      e.waypoints ++ state.map lift := by
  induction state generalizing e with
  | nil => simp
  | cons p rest ih => simp [ih, addWaypoint_false_waypoints]

/-- What `restoreState` rebuilds: every stored position lifted once more by
`0.5`, not the stored positions themselves. -/
theorem restoreState_waypoints (state : List Vec3) (e : Editor) :
    (restoreState state e).waypoints = state.map lift := by
  simp [restoreState, updateCurve_waypoints, foldl_addWaypoint_waypoints]

/-- C1, evaluated on the code: after `addWaypoint((0,0,0))` the live sequence is
`[(0, 0.5, 0)]`; one `undo()` followed by one `redo()` leaves `[(0, 1, 0)]`,
because `restoreState` re-adds the snapshot through `addWaypoint`, which lifts
`y` by `0.5` again. -/
theorem undo_redo_shifts_waypoint :
    (addWaypoint ⟨0, 0, 0⟩ true Editor.init).waypoints = [⟨0, 1 / 2, 0⟩] ∧
    (iter redo 1 (iter undo 1 (addWaypoint ⟨0, 0, 0⟩ true Editor.init))).waypoints
      = [⟨0, 1, 0⟩] := by
  constructor
  · simp [addWaypoint, saveState, updateCurve, Editor.init]
  · simp [iter, redo, undo, addWaypoint, restoreState, saveState, updateCurve, Editor.init]
    norm_num

/-- C2, evaluated on the code: after adding `(0,0,0)` and `(1,0,0)` the snapshot on
top of the undo stack is `[(0, 0.5, 0)]`, yet `undo()` leaves the live sequence
`[(0, 1, 0)]`; the pre-undo sequence is on top of the redo stack as claimed. -/
theorem undo_restores_lifted_snapshot :
    (addWaypoint ⟨1, 0, 0⟩ true (addWaypoint ⟨0, 0, 0⟩ true Editor.init)).undoStack.head?
      = some [⟨0, 1 / 2, 0⟩] ∧
    (undo (addWaypoint ⟨1, 0, 0⟩ true (addWaypoint ⟨0, 0, 0⟩ true Editor.init))).waypoints
      = [⟨0, 1, 0⟩] ∧
    (undo (addWaypoint ⟨1, 0, 0⟩ true (addWaypoint ⟨0, 0, 0⟩ true Editor.init))).redoStack.head?
      = some (addWaypoint ⟨1, 0, 0⟩ true (addWaypoint ⟨0, 0, 0⟩ true Editor.init)).waypoints := by
  refine ⟨?_, ?_, ?_⟩
  · simp [addWaypoint, saveState, updateCurve, Editor.init]
  · simp [undo, addWaypoint, restoreState, saveState, updateCurve, Editor.init]
    norm_num
  · simp [undo, addWaypoint, restoreState, saveState, updateCurve, Editor.init]

/-! ## Race motion solver: speed and distance -/

theorem raceFrames_append (cfg : RaceConfig) (before after : List (ℚ × Curve3))
    (s : RaceState) :
    raceFrames cfg (before ++ after) s = raceFrames cfg after (raceFrames cfg before s) := by
  induction before generalizing s with
  | nil => rfl
  | cons f rest ih =>
    obtain ⟨delta, curve⟩ := f
    simp [raceFrames, ih]

theorem raceStep_speed (cfg : RaceConfig) (curve : Curve3) (delta : ℚ) (s : RaceState) :
    (raceStep cfg curve delta s).speed = min (s.speed + cfg.acceleration * delta) cfg.maxSpeed :=
  rfl

theorem raceStep_distance (cfg : RaceConfig) (curve : Curve3) (delta : ℚ) (s : RaceState) :
    (raceStep cfg curve delta s).distance =
      s.distance + min (s.speed + cfg.acceleration * delta) cfg.maxSpeed * delta :=
  rfl

theorem raceStep_bounds (cfg : RaceConfig) (hacc : 0 ≤ cfg.acceleration)
    (hmax : 0 ≤ cfg.maxSpeed) (curve : Curve3) (delta : ℚ) (s : RaceState)
    (hdelta : 0 ≤ delta) (hspeed : 0 ≤ s.speed) :
    0 ≤ (raceStep cfg curve delta s).speed ∧
    (raceStep cfg curve delta s).speed ≤ cfg.maxSpeed ∧
    s.distance ≤ (raceStep cfg curve delta s).distance := by
  have h0 : 0 ≤ min (s.speed + cfg.acceleration * delta) cfg.maxSpeed :=
    le_min (add_nonneg hspeed (mul_nonneg hacc hdelta)) hmax
  refine ⟨?_, ?_, ?_⟩
  · rw [raceStep_speed]; exact h0
  · rw [raceStep_speed]; exact min_le_right _ _
  · rw [raceStep_distance]
    have := mul_nonneg h0 hdelta
    linarith

theorem raceFrames_bounds (cfg : RaceConfig) (hacc : 0 ≤ cfg.acceleration)
    (hmax : 0 ≤ cfg.maxSpeed) (frames : List (ℚ × Curve3)) (s : RaceState)
    (hframes : ∀ f ∈ frames, 0 ≤ f.1) (hspeed : 0 ≤ s.speed) (hle : s.speed ≤ cfg.maxSpeed) :
    0 ≤ (raceFrames cfg frames s).speed ∧
    (raceFrames cfg frames s).speed ≤ cfg.maxSpeed ∧
    s.distance ≤ (raceFrames cfg frames s).distance := by
  induction frames generalizing s with
  | nil => exact ⟨hspeed, hle, le_refl _⟩
  | cons f rest ih =>
    obtain ⟨delta, curve⟩ := f
    have hd : 0 ≤ delta := hframes (delta, curve) (List.mem_cons_self _ _)
    obtain ⟨h1, h2, h3⟩ := raceStep_bounds cfg hacc hmax curve delta s hd hspeed
    obtain ⟨i1, i2, i3⟩ := ih (raceStep cfg curve delta s)
      (fun f hf => hframes f (List.mem_cons_of_mem _ hf)) h1 h2
    exact ⟨i1, i2, le_trans h3 i3⟩

/-- C3: with `acceleration ≥ 0` and `maxSpeed ≥ 0`, one race frame with frame time
`delta ≥ 0` on a state with `speed ≥ 0` and `distance ≥ 0` gives
`0 ≤ speed ≤ maxSpeed` and a distance not below the old one; and along any
sequence of such frames after `startRace()` the speed stays in `[0, maxSpeed]`
and the distance after more frames is never below the distance after fewer. -/
theorem race_speed_bounded_distance_monotone (cfg : RaceConfig)
    (hacc : 0 ≤ cfg.acceleration) (hmax : 0 ≤ cfg.maxSpeed) :
    (∀ (curve : Curve3) (delta : ℚ) (s : RaceState),
      0 ≤ delta → 0 ≤ s.speed → 0 ≤ s.distance →
        0 ≤ (raceStep cfg curve delta s).speed ∧
        (raceStep cfg curve delta s).speed ≤ cfg.maxSpeed ∧
        s.distance ≤ (raceStep cfg curve delta s).distance) ∧
    (∀ (before after : List (ℚ × Curve3)),
      (∀ f ∈ before ++ after, 0 ≤ f.1) →
        0 ≤ (raceFrames cfg (before ++ after) startRaceState).speed ∧
        (raceFrames cfg (before ++ after) startRaceState).speed ≤ cfg.maxSpeed ∧
        0 ≤ (raceFrames cfg before startRaceState).distance ∧
        (raceFrames cfg before startRaceState).distance ≤
          (raceFrames cfg (before ++ after) startRaceState).distance) := by
  constructor
  · intro curve delta s hd hs _
    exact raceStep_bounds cfg hacc hmax curve delta s hd hs
  · intro before after hframes
    have hb : ∀ f ∈ before, 0 ≤ f.1 := fun f hf => hframes f (List.mem_append_left _ hf)
    have ha : ∀ f ∈ after, 0 ≤ f.1 := fun f hf => hframes f (List.mem_append_right _ hf)
    have h0 : (0 : ℚ) ≤ startRaceState.speed := le_refl _
    have h1 : startRaceState.speed ≤ cfg.maxSpeed := hmax
    obtain ⟨b1, b2, b3⟩ := raceFrames_bounds cfg hacc hmax before startRaceState hb h0 h1
    obtain ⟨a1, a2, a3⟩ := raceFrames_bounds cfg hacc hmax after
      (raceFrames cfg before startRaceState) ha b1 b2
    rw [raceFrames_append]
    exact ⟨a1, a2, b3, a3⟩

/-- C3 at a concrete input: the initial configuration, one frame of `0.1` s on
the state left by `startRace()`, and the frames `[0.1]` then `[0.05]`. -/
theorem race_speed_bounded_distance_monotone_witness :
    (0 ≤ (raceStep raceConfig ⟨10, fun _ => ⟨1, 0, 0⟩⟩ (1 / 10) startRaceState).speed ∧
      (raceStep raceConfig ⟨10, fun _ => ⟨1, 0, 0⟩⟩ (1 / 10) startRaceState).speed
        ≤ raceConfig.maxSpeed ∧
      startRaceState.distance
        ≤ (raceStep raceConfig ⟨10, fun _ => ⟨1, 0, 0⟩⟩ (1 / 10) startRaceState).distance) ∧
    (raceFrames raceConfig [(1 / 10, ⟨10, fun _ => ⟨1, 0, 0⟩⟩)] startRaceState).distance ≤
      (raceFrames raceConfig
        ([(1 / 10, ⟨10, fun _ => ⟨1, 0, 0⟩⟩)] ++ [(1 / 20, ⟨10, fun _ => ⟨1, 0, 0⟩⟩)])
        startRaceState).distance :=
  have h := race_speed_bounded_distance_monotone raceConfig
    (by norm_num [raceConfig]) (by norm_num [raceConfig])
  ⟨h.1 ⟨10, fun _ => ⟨1, 0, 0⟩⟩ (1 / 10) startRaceState (by norm_num)
      (by norm_num [startRaceState]) (by norm_num [startRaceState]),
    (h.2 [(1 / 10, ⟨10, fun _ => ⟨1, 0, 0⟩⟩)] [(1 / 20, ⟨10, fun _ => ⟨1, 0, 0⟩⟩)]
      (by
        intro f hf
        simp only [List.cons_append, List.nil_append, List.mem_cons, List.mem_singleton,
          List.not_mem_nil, or_false] at hf
        rcases hf with rfl | rfl <;> norm_num)).2.2.2⟩

/-! ## Race motion solver: the one-second scenario -/

theorem replicate_succ_snoc {α : Type} (k : Nat) (a : α) :
    List.replicate (k + 1) a = List.replicate k a ++ [a] := by
  induction k with
  | zero => rfl
  | succ n ih =>
    calc List.replicate (n + 1 + 1) a
        = a :: List.replicate (n + 1) a := rfl
      _ = a :: (List.replicate n a ++ [a]) := by rw [ih]
      _ = List.replicate (n + 1) a ++ [a] := rfl

/-- Closed form of `k` equal frames from rest while the speed cap is not
reached: speed `10·k·δ` and distance `5·k·(k+1)·δ²`. -/
theorem raceFrames_uniform (curve : Curve3) (delta : ℚ) (hdelta : 0 ≤ delta) (k : Nat)
    (hk : (k : ℚ) * delta ≤ 4) :
    (raceFrames raceConfig (List.replicate k (delta, curve)) startRaceState).speed
      = 10 * k * delta ∧
    (raceFrames raceConfig (List.replicate k (delta, curve)) startRaceState).distance
      = 5 * k * (k + 1) * delta * delta := by
  induction k with
  | zero => simp [raceFrames, startRaceState]
  | succ n ih =>
    have hn : (n : ℚ) * delta ≤ 4 := by
      push_cast at hk
      nlinarith
    obtain ⟨hs, hd⟩ := ih hn
    rw [replicate_succ_snoc, raceFrames_append]
    have hstep : min (10 * (n : ℚ) * delta + 10 * delta) 40 = 10 * ((n : ℚ) + 1) * delta := by
      push_cast at hk
      rw [min_eq_left (by nlinarith)]
      ring
    constructor
    · simp only [raceFrames, raceStep_speed]
      rw [hs]
      simp only [raceConfig]
      rw [hstep]
      push_cast
      ring
    · simp only [raceFrames, raceStep_distance]
      rw [hs, hd]
      simp only [raceConfig]
      rw [hstep]
      push_cast
      ring

/-- C4: from the state left by `startRace()`, with `acceleration = 10` and
`maxSpeed = 40`, `N ≥ 10` race frames of elapsed time `1/N` each (one second
in total, each frame time under the `0.1` cap) end with `speed = 10` and
`|distance − 5| ≤ 5·(1/N)`. -/
theorem race_one_second_scenario (N : Nat) (hN : 10 ≤ N) (curve : Curve3) :
    (raceFrames raceConfig (List.replicate N (frameDelta (1 / (N : ℚ)), curve))
        startRaceState).speed = 10 ∧
    |(raceFrames raceConfig (List.replicate N (frameDelta (1 / (N : ℚ)), curve))
        startRaceState).distance - 5| ≤ 5 * (1 / (N : ℚ)) := by
  have hNq : (10 : ℚ) ≤ (N : ℚ) := by exact_mod_cast hN
  have hpos : (0 : ℚ) < (N : ℚ) := by linarith
  have hne : (N : ℚ) ≠ 0 := ne_of_gt hpos
  have hcap : frameDelta (1 / (N : ℚ)) = 1 / (N : ℚ) := by
    unfold frameDelta
    apply min_eq_left
    exact one_div_le_one_div_of_le (by norm_num) hNq
  rw [hcap]
  have hone : (N : ℚ) * (1 / (N : ℚ)) = 1 := by field_simp
  obtain ⟨hs, hd⟩ := raceFrames_uniform curve (1 / (N : ℚ)) (by positivity) N
    (by rw [hone]; norm_num)
  constructor
  · rw [hs]
    field_simp
  · rw [hd]
    have hdist : 5 * (N : ℚ) * ((N : ℚ) + 1) * (1 / (N : ℚ)) * (1 / (N : ℚ)) - 5
        = 5 * (1 / (N : ℚ)) := by
      field_simp
      ring
    rw [hdist, abs_of_nonneg (by positivity)]

/-- C4 at `N = 10`: ten frames of `0.1` s. -/
theorem race_one_second_scenario_witness :
    (raceFrames raceConfig
        (List.replicate 10 (frameDelta (1 / ((10 : Nat) : ℚ)), ⟨10, fun _ => ⟨1, 0, 0⟩⟩))
        startRaceState).speed = 10 ∧
    |(raceFrames raceConfig
        (List.replicate 10 (frameDelta (1 / ((10 : Nat) : ℚ)), ⟨10, fun _ => ⟨1, 0, 0⟩⟩))
        startRaceState).distance - 5| ≤ 5 * (1 / ((10 : Nat) : ℚ)) :=
  race_one_second_scenario 10 (by decide) ⟨10, fun _ => ⟨1, 0, 0⟩⟩

/-! ## Race motion solver: drift -/

theorem targetDrift_bounds (tangent tangentAhead : Vec3) :
    -(8 / 10) ≤ targetDrift tangent tangentAhead ∧ targetDrift tangent tangentAhead ≤ 8 / 10 := by
  unfold targetDrift
  constructor
  · exact le_max_left _ _
  · exact max_le (by norm_num) (min_le_left _ _)

theorem lerp_mem_interval (lo hi x y t : ℚ) (ht0 : 0 ≤ t) (ht1 : t ≤ 1)
    (hx : lo ≤ x ∧ x ≤ hi) (hy : lo ≤ y ∧ y ≤ hi) :
    lo ≤ lerp x y t ∧ lerp x y t ≤ hi := by
  unfold lerp
  have h1 : 0 ≤ 1 - t := by linarith
  constructor
  · nlinarith [mul_nonneg h1 (sub_nonneg.mpr hx.1), mul_nonneg ht0 (sub_nonneg.mpr hy.1)]
  · nlinarith [mul_nonneg h1 (sub_nonneg.mpr hx.2), mul_nonneg ht0 (sub_nonneg.mpr hy.2)]

theorem driftStep_bounds (tangent tangentAhead : Vec3) (delta : ℚ) (currentDrift : Option ℚ)
    (h0 : 0 ≤ delta) (h1 : delta ≤ 1 / 10)
    (hcur : -(8 / 10) ≤ currentDrift.getD 0 ∧ currentDrift.getD 0 ≤ 8 / 10) :
    -(8 / 10) ≤ driftStep tangent tangentAhead delta currentDrift ∧
    driftStep tangent tangentAhead delta currentDrift ≤ 8 / 10 := by
  unfold driftStep
  apply lerp_mem_interval _ _ _ _ _ _ _ hcur (targetDrift_bounds tangent tangentAhead)
  · unfold smoothFactor; linarith
  · unfold smoothFactor; linarith

theorem raceStep_currentDrift (cfg : RaceConfig) (curve : Curve3) (delta : ℚ) (s : RaceState) :
    (raceStep cfg curve delta s).currentDrift =
      some (driftStep
        (curve.getTangentAt (curveParam (raceStep cfg curve delta s).distance curve.getLength))
        (curve.getTangentAt
          (lookAhead (curveParam (raceStep cfg curve delta s).distance curve.getLength)))
        delta s.currentDrift) :=
  rfl

theorem raceFrames_drift_bounds (cfg : RaceConfig) (frames : List (ℚ × Curve3)) (s : RaceState)
    (hframes : ∀ f ∈ frames, 0 ≤ f.1 ∧ f.1 ≤ 1 / 10)
    (hcur : -(8 / 10) ≤ s.currentDrift.getD 0 ∧ s.currentDrift.getD 0 ≤ 8 / 10) :
    -(8 / 10) ≤ (raceFrames cfg frames s).currentDrift.getD 0 ∧
    (raceFrames cfg frames s).currentDrift.getD 0 ≤ 8 / 10 := by
  induction frames generalizing s with
  | nil => exact hcur
  | cons f rest ih =>
    obtain ⟨delta, curve⟩ := f
    have hd := hframes (delta, curve) (List.mem_cons_self _ _)
    apply ih (raceStep cfg curve delta s) (fun f hf => hframes f (List.mem_cons_of_mem _ hf))
    rw [raceStep_currentDrift]
    exact driftStep_bounds _ _ delta s.currentDrift hd.1 hd.2 hcur

/-- C5: for every sequence of race frames with frame times in `[0, 0.1]`, on any
curves (any tangent function), started from the state left by `startRace()`
(drift initialised to `0`), `currentDrift` is in `[-0.8, 0.8]` after the
sequence, hence after every frame; and a single drift update keeps the
interval for arbitrary tangent and tangent-ahead vectors. -/
theorem currentDrift_within_bounds (cfg : RaceConfig) :
    (∀ frames : List (ℚ × Curve3), (∀ f ∈ frames, 0 ≤ f.1 ∧ f.1 ≤ 1 / 10) →
      -(8 / 10) ≤ (raceFrames cfg frames startRaceState).currentDrift.getD 0 ∧
      (raceFrames cfg frames startRaceState).currentDrift.getD 0 ≤ 8 / 10) ∧
    (∀ (tangent tangentAhead : Vec3) (delta : ℚ) (currentDrift : Option ℚ),
      0 ≤ delta → delta ≤ 1 / 10 →
      -(8 / 10) ≤ currentDrift.getD 0 → currentDrift.getD 0 ≤ 8 / 10 →
        -(8 / 10) ≤ driftStep tangent tangentAhead delta currentDrift ∧
        driftStep tangent tangentAhead delta currentDrift ≤ 8 / 10) := by
  constructor
  · intro frames hframes
    apply raceFrames_drift_bounds cfg frames startRaceState hframes
    norm_num [startRaceState]
  · intro tangent tangentAhead delta currentDrift h0 h1 hlo hhi
    exact driftStep_bounds tangent tangentAhead delta currentDrift h0 h1 ⟨hlo, hhi⟩

/-- C5 at a concrete input: two frames of `0.1` s on a curve whose tangent turns
sharply (`turnDir = 1`, target drift clamped to `0.8`). -/
theorem currentDrift_within_bounds_witness :
    -(8 / 10) ≤
      (raceFrames raceConfig
        [(1 / 10, ⟨10, fun t => if t < 1 / 50 then ⟨1, 0, 0⟩ else ⟨0, 0, 1⟩⟩),
         (1 / 10, ⟨10, fun t => if t < 1 / 50 then ⟨1, 0, 0⟩ else ⟨0, 0, 1⟩⟩)]
        startRaceState).currentDrift.getD 0 ∧
    (raceFrames raceConfig
        [(1 / 10, ⟨10, fun t => if t < 1 / 50 then ⟨1, 0, 0⟩ else ⟨0, 0, 1⟩⟩),
         (1 / 10, ⟨10, fun t => if t < 1 / 50 then ⟨1, 0, 0⟩ else ⟨0, 0, 1⟩⟩)]
        startRaceState).currentDrift.getD 0 ≤ 8 / 10 :=
  (currentDrift_within_bounds raceConfig).1 _
    (by
      intro f hf
      simp only [List.mem_cons, List.mem_singleton, List.not_mem_nil, or_false] at hf
      rcases hf with rfl | rfl <;> norm_num)

/-- C6: in a race frame with frame time `delta = min(elapsed, 0.1)`, `elapsed ≥ 0`,
the new `currentDrift` is `lerp(old, target, min(5·delta, 1))` (the factor
`5·delta` used by the code equals `min(5·delta, 1)`), it lies between the old
value and the target, and `|new − target| = (1 − 5·delta)·|old − target|`. -/
theorem drift_smoothing_no_overshoot (cfg : RaceConfig) (curve : Curve3) (elapsed : ℚ)
    (s : RaceState) (helapsed : 0 ≤ elapsed) :
    smoothFactor (frameDelta elapsed) = min (5 * frameDelta elapsed) 1 ∧
    ∃ target new : ℚ,
      target = targetDrift
        (curve.getTangentAt
          (curveParam (raceStep cfg curve (frameDelta elapsed) s).distance curve.getLength))
        (curve.getTangentAt (lookAhead
          (curveParam (raceStep cfg curve (frameDelta elapsed) s).distance curve.getLength))) ∧
      (raceStep cfg curve (frameDelta elapsed) s).currentDrift = some new ∧
      new = lerp (s.currentDrift.getD 0) target (min (5 * frameDelta elapsed) 1) ∧
      min (s.currentDrift.getD 0) target ≤ new ∧
      new ≤ max (s.currentDrift.getD 0) target ∧
      |new - target| = (1 - 5 * frameDelta elapsed) * |s.currentDrift.getD 0 - target| := by
  have hd0 : 0 ≤ frameDelta elapsed := le_min helapsed (by norm_num)
  have hd1 : frameDelta elapsed ≤ 1 / 10 := min_le_right _ _
  have hfac : min (5 * frameDelta elapsed) 1 = 5 * frameDelta elapsed :=
    min_eq_left (by linarith)
  refine ⟨by rw [hfac]; rfl, _, _, rfl, raceStep_currentDrift cfg curve _ s, ?_, ?_, ?_, ?_⟩
  · rw [hfac]; rfl
  · unfold driftStep lerp smoothFactor
    rcases le_total (s.currentDrift.getD 0) (targetDrift
        (curve.getTangentAt
          (curveParam (raceStep cfg curve (frameDelta elapsed) s).distance curve.getLength))
        (curve.getTangentAt (lookAhead
          (curveParam (raceStep cfg curve (frameDelta elapsed) s).distance curve.getLength))))
      with h | h
    · rw [min_eq_left h]; nlinarith
    · rw [min_eq_right h]; nlinarith
  · unfold driftStep lerp smoothFactor
    rcases le_total (s.currentDrift.getD 0) (targetDrift
        (curve.getTangentAt
          (curveParam (raceStep cfg curve (frameDelta elapsed) s).distance curve.getLength))
        (curve.getTangentAt (lookAhead
          (curveParam (raceStep cfg curve (frameDelta elapsed) s).distance curve.getLength))))
      with h | h
    · rw [max_eq_right h]; nlinarith
    · rw [max_eq_left h]; nlinarith
  · have key : ∀ old target delta : ℚ,
        (1 - 5 * delta) * old + 5 * delta * target - target = (1 - 5 * delta) * (old - target) := by
      intro old target delta
      ring
    unfold driftStep lerp smoothFactor
    rw [key, abs_mul, abs_of_nonneg (show (0 : ℚ) ≤ 1 - 5 * frameDelta elapsed by linarith)]

/-- C6 at a concrete input: a frame of `0.05` s on a sharply turning curve. -/
theorem drift_smoothing_no_overshoot_witness :
    smoothFactor (frameDelta (1 / 20)) = min (5 * frameDelta (1 / 20)) 1 ∧
    ∃ target new : ℚ,
      target = targetDrift
        ((⟨10, fun t => if t < 1 / 50 then ⟨1, 0, 0⟩ else ⟨0, 0, 1⟩⟩ : Curve3).getTangentAt
          (curveParam (raceStep raceConfig
            ⟨10, fun t => if t < 1 / 50 then ⟨1, 0, 0⟩ else ⟨0, 0, 1⟩⟩
            (frameDelta (1 / 20)) startRaceState).distance 10))
        ((⟨10, fun t => if t < 1 / 50 then ⟨1, 0, 0⟩ else ⟨0, 0, 1⟩⟩ : Curve3).getTangentAt
          (lookAhead (curveParam (raceStep raceConfig
            ⟨10, fun t => if t < 1 / 50 then ⟨1, 0, 0⟩ else ⟨0, 0, 1⟩⟩
            (frameDelta (1 / 20)) startRaceState).distance 10))) ∧
      (raceStep raceConfig ⟨10, fun t => if t < 1 / 50 then ⟨1, 0, 0⟩ else ⟨0, 0, 1⟩⟩
        (frameDelta (1 / 20)) startRaceState).currentDrift = some new ∧
      new = lerp (startRaceState.currentDrift.getD 0) target (min (5 * frameDelta (1 / 20)) 1) ∧
      min (startRaceState.currentDrift.getD 0) target ≤ new ∧
      new ≤ max (startRaceState.currentDrift.getD 0) target ∧
      |new - target| =
        (1 - 5 * frameDelta (1 / 20)) * |startRaceState.currentDrift.getD 0 - target| :=
  drift_smoothing_no_overshoot raceConfig
    ⟨10, fun t => if t < 1 / 50 then ⟨1, 0, 0⟩ else ⟨0, 0, 1⟩⟩ (1 / 20) startRaceState
    (by norm_num)

/-! ## Camera recorder: playback -/

theorem logSwitch_fields (name : String) (s : Session) :
    (logSwitch name s).isRecording = s.isRecording ∧
    (logSwitch name s).isPlaying = s.isPlaying ∧
    (logSwitch name s).isRacing = s.isRacing ∧
    (logSwitch name s).raceTime = s.raceTime ∧
    (logSwitch name s).activeCamVal = s.activeCamVal ∧
    (logSwitch name s).activeCameraName = s.activeCameraName ∧
    (logSwitch name s).hasSetActiveCamera = s.hasSetActiveCamera ∧
    (logSwitch name s).hasUpdateCameraManagerUI = s.hasUpdateCameraManagerUI ∧
    (logSwitch name s).cameraPitch = s.cameraPitch ∧
    (logSwitch name s).cameraYaw = s.cameraYaw ∧
    (logSwitch name s).cameraRoll = s.cameraRoll := by
  unfold logSwitch
  split <;> simp

theorem scanKeyframes_eq (time : ℚ) (keyframes : List Keyframe) (activeKey : Option Keyframe) :
    scanKeyframes time keyframes activeKey =
      (qualifyingRun time keyframes).getLast?.or activeKey := by
  induction keyframes generalizing activeKey with
  | nil => simp [scanKeyframes, qualifyingRun]
  | cons k rest ih =>
    unfold scanKeyframes qualifyingRun
    by_cases hk : k.time ≤ time
    · rw [if_pos hk, ih, List.takeWhile_cons_of_pos (by simpa using hk), List.getLast?_cons]
      unfold qualifyingRun
      cases (List.takeWhile (fun k => decide (k.time ≤ time)) rest).getLast? <;> simp
    · rw [if_neg hk, List.takeWhile_cons_of_neg (by simpa using hk)]
      simp

theorem scanKeyframes_none (time : ℚ) (keyframes : List Keyframe) :
    scanKeyframes time keyframes none = (qualifyingRun time keyframes).getLast? := by
  rw [scanKeyframes_eq]
  cases (qualifyingRun time keyframes).getLast? <;> rfl

theorem qualifyingRun_eq_filter (time : ℚ) (keyframes : List Keyframe)
    (hordered : TimeOrdered keyframes) :
    qualifyingRun time keyframes = keyframes.filter (fun k => decide (k.time ≤ time)) := by
  unfold qualifyingRun
  induction keyframes with
  | nil => rfl
  | cons k rest ih =>
    have hp := List.pairwise_cons.mp hordered
    by_cases hk : k.time ≤ time
    · rw [List.takeWhile_cons_of_pos (by simpa using hk),
        List.filter_cons_of_pos (by simpa using hk), ih hp.2]
    · rw [List.takeWhile_cons_of_neg (by simpa using hk),
        List.filter_cons_of_neg (by simpa using hk)]
      symm
      rw [List.filter_eq_nil_iff]
      intro a ha hle
      exact hk (le_trans (hp.1 a ha) (by simpa using hle))

theorem update_of_not_playing (time : ℚ) (s : Session) (h : s.isPlaying = false) :
    update time s = s := by
  simp [update, h]

theorem update_of_scan_none (time : ℚ) (s : Session)
    (h : scanKeyframes time s.keyframes none = none) : update time s = s := by
  unfold update
  split
  · rfl
  · rw [h]

theorem update_of_scan_some (time : ℚ) (s : Session) (k : Keyframe)
    (hplay : s.isPlaying = true) (hcons : s.Consistent)
    (h : scanKeyframes time s.keyframes none = some k) :
    (update time s).activeCamVal = some k.cameraName ∧
    (update time s).cameraPitch = k.pitch ∧
    (update time s).cameraYaw = k.yaw ∧
    (update time s).cameraRoll = k.roll := by
  have hne : s.keyframes ≠ [] := by
    intro hnil
    rw [hnil] at h
    simp [scanKeyframes] at h
  have hlen : (s.keyframes.length == 0) = false := by
    cases hk : s.keyframes with
    | nil => exact absurd hk hne
    | cons a l => rfl
  unfold update
  rw [hplay, hlen, h]
  refine ⟨?_, rfl, rfl, rfl⟩
  simp only [Bool.not_true, Bool.or_self, Bool.false_eq_true, if_false]
  by_cases hsame : s.activeCamVal = some k.cameraName
  · simp [hsame]
  · rw [if_pos hsame]
    cases hset : s.hasSetActiveCamera with
    | true =>
      have hloc : s.activeCameraName ≠ some k.cameraName := by
        rw [hcons.2 hset]; exact hsame
      simp [setActiveCamera, hloc, updateCameraManagerUI, setWindowActiveCameraName,
        (logSwitch_fields _ _).2.2.2.2.1]
    | false =>
      have hui : s.hasUpdateCameraManagerUI = false := by
        cases hu : s.hasUpdateCameraManagerUI with
        | false => rfl
        | true => rw [hcons.1 hu] at hset; exact absurd hset (by decide)
      simp [setWindowActiveCameraName, (logSwitch_fields _ _).2.2.2.2.1,
        (logSwitch_fields _ _).2.2.2.2.2.2.2.1, hui]

/-! ## Camera manager globals: the consistency condition is an invariant -/

theorem consistent_of_fields (s1 s2 : Session) (h : s1.Consistent)
    (h1 : s2.hasUpdateCameraManagerUI = s1.hasUpdateCameraManagerUI)
    (h2 : s2.hasSetActiveCamera = s1.hasSetActiveCamera)
    (h3 : s2.activeCameraName = s1.activeCameraName)
    (h4 : s2.activeCamVal = s1.activeCamVal) : s2.Consistent := by
  unfold Session.Consistent at *
  rw [h1, h2, h3, h4]
  exact h

theorem logSwitch_consistent (name : String) (s : Session) (h : s.Consistent) :
    (logSwitch name s).Consistent :=
  consistent_of_fields s _ h (logSwitch_fields name s).2.2.2.2.2.2.2.1
    (logSwitch_fields name s).2.2.2.2.2.2.1 (logSwitch_fields name s).2.2.2.2.2.1
    (logSwitch_fields name s).2.2.2.2.1

theorem updateCameraManagerUI_consistent (s : Session) : (updateCameraManagerUI s).Consistent := by
  constructor
  · intro _
    rfl
  · intro _
    simp [updateCameraManagerUI, setWindowActiveCameraName, (logSwitch_fields _ _).2.2.2.2.1,
      (logSwitch_fields _ _).2.2.2.2.2.1]

theorem setActiveCamera_consistent (name : String) (s : Session) (h : s.Consistent) :
    (setActiveCamera name s).Consistent := by
  unfold setActiveCamera
  split
  · exact updateCameraManagerUI_consistent _
  · exact h

theorem logAngles_consistent (s : Session) (h : s.Consistent) : (logAngles s).Consistent := by
  unfold logAngles
  split
  · exact h
  · split
    · split
      · exact h
      · exact consistent_of_fields s _ h rfl rfl rfl rfl
    · exact consistent_of_fields s _ h rfl rfl rfl rfl

theorem update_consistent (time : ℚ) (s : Session) (h : s.Consistent) :
    (update time s).Consistent := by
  unfold update
  split
  · exact h
  · split
    · exact h
    · rename_i activeKey _
      refine consistent_of_fields _ _ ?_ rfl rfl rfl rfl
      split
      · split
        · exact setActiveCamera_consistent _ s h
        · rename_i hset
          have hset2 : s.hasSetActiveCamera = false := by simpa using hset
          have hui : s.hasUpdateCameraManagerUI = false := by
            cases hu : s.hasUpdateCameraManagerUI with
            | false => rfl
            | true => rw [h.1 hu] at hset2; exact absurd hset2 (by decide)
          have hfix : (setWindowActiveCameraName (some activeKey.cameraName) s).Consistent := by
            constructor
            · intro hu
              simp [setWindowActiveCameraName, (logSwitch_fields _ _).2.2.2.2.2.2.2.1, hui] at hu
            · intro hs
              simp [setWindowActiveCameraName, (logSwitch_fields _ _).2.2.2.2.2.2.1, hset2] at hs
          simp only
          split
          · exact updateCameraManagerUI_consistent _
          · exact hfix
      · exact h

/-- Every recording-time operation keeps the camera-manager globals consistent;
they are consistent in the initial session. -/
theorem RecOp.apply_consistent (op : RecOp) (s : Session) (h : s.Consistent) :
    (op.apply s).Consistent := by
  cases op with
  | startRecording =>
    exact logSwitch_consistent _ _ (consistent_of_fields s _ h rfl rfl rfl rfl)
  | frame elapsed cameraLogic =>
    have h1 : (advanceRaceTime (frameDelta elapsed) s).Consistent := by
      unfold advanceRaceTime
      split
      · exact consistent_of_fields s _ h rfl rfl rfl rfl
      · exact h
    have h2 : ∀ s1 : Session, s1.Consistent → (recorderFrame s1).Consistent := by
      intro s1 hs1
      have hu : (if s1.isPlaying && s1.isRacing then update s1.raceTime s1 else s1).Consistent := by
        split
        · exact update_consistent _ s1 hs1
        · exact hs1
      have hl : ∀ s2 : Session, s2.Consistent →
          (if s2.isRecording && s2.isRacing then PathRace.logAngles s2 else s2).Consistent := by
        intro s2 hs2
        split
        · exact logAngles_consistent s2 hs2
        · exact hs2
      exact hl _ hu
    simp only [RecOp.apply, animateFrame]
    split
    · exact h2 _ h1
    · exact h1
  | selectCamera name => exact updateCameraManagerUI_consistent _
  | setCameraAngles p y r => exact consistent_of_fields s _ h rfl rfl rfl rfl
  | logAngles => exact logAngles_consistent s h
  | startRace a =>
    simp only [RecOp.apply, PathRace.startRace]
    split
    · exact h
    · exact consistent_of_fields s _ h rfl rfl rfl rfl
  | resetRace => exact consistent_of_fields s _ h rfl rfl rfl rfl

theorem Session.init_consistent : Session.init.Consistent := by
  simp [Session.Consistent, Session.init]

theorem loadKeyframes_consistent (keyframes : List Keyframe) (s : Session) (h : s.Consistent) :
    (loadKeyframes keyframes s).Consistent :=
  consistent_of_fields s _ h rfl rfl rfl rfl

theorem qualifyingRun_append_late (t : ℚ) (pre post : List Keyframe) (late : Keyframe)
    (hlate : t < late.time) :
    qualifyingRun t (pre ++ late :: post) = qualifyingRun t pre := by
  unfold qualifyingRun
  induction pre with
  | nil =>
    rw [List.nil_append, List.takeWhile_cons_of_neg (by simpa using hlate)]
    rfl
  | cons a rest ih =>
    by_cases ha : a.time ≤ t
    · rw [List.cons_append, List.takeWhile_cons_of_pos (by simpa using ha),
        List.takeWhile_cons_of_pos (by simpa using ha), ih]
    · rw [List.cons_append, List.takeWhile_cons_of_neg (by simpa using ha),
        List.takeWhile_cons_of_neg (by simpa using ha)]

/-- C7: on a keyframe list ordered by non-decreasing time, `update(t)` while
playing makes the last keyframe with `time ≤ t` current: the active camera
name and the pitch / yaw / roll sliders are that keyframe's; when the recorder
is not playing, or no keyframe has `time ≤ t` (an empty list included), the
session is unchanged. -/
theorem update_selects_last_keyframe (s : Session) (t : ℚ)
    (hordered : TimeOrdered s.keyframes) (hcons : s.Consistent) :
    (∀ k : Keyframe, s.isPlaying = true → lastQualifying t s.keyframes = some k →
      (update t s).activeCamVal = some k.cameraName ∧
      (update t s).cameraPitch = k.pitch ∧
      (update t s).cameraYaw = k.yaw ∧
      (update t s).cameraRoll = k.roll) ∧
    ((s.isPlaying = false ∨ lastQualifying t s.keyframes = none) →
      (update t s).activeCamVal = s.activeCamVal ∧
      (update t s).cameraPitch = s.cameraPitch ∧
      (update t s).cameraYaw = s.cameraYaw ∧
      (update t s).cameraRoll = s.cameraRoll) := by
  have hscan : scanKeyframes t s.keyframes none = lastQualifying t s.keyframes := by
    rw [scanKeyframes_none, qualifyingRun_eq_filter t s.keyframes hordered]
    rfl
  constructor
  · intro k hplay hk
    exact update_of_scan_some t s k hplay hcons (hscan.trans hk)
  · intro h
    rcases h with h | h
    · rw [update_of_not_playing t s h]
      exact ⟨rfl, rfl, rfl, rfl⟩
    · rw [update_of_scan_none t s (hscan.trans h)]
      exact ⟨rfl, rfl, rfl, rfl⟩

/-- C7 on the scenario: with keyframes `[(0, "A"), (5, "B")]` loaded, `update(3)`
gives active camera `"A"` and `update(6)` gives `"B"`. -/
theorem update_selects_last_keyframe_witness :
    (update 3 (loadKeyframes [⟨0, "A", 10, 20, 30⟩, ⟨5, "B", 1, 2, 3⟩] Session.init)).activeCamVal
      = some "A" ∧
    (update 6 (loadKeyframes [⟨0, "A", 10, 20, 30⟩, ⟨5, "B", 1, 2, 3⟩] Session.init)).activeCamVal
      = some "B" :=
  have hordered : TimeOrdered
      (loadKeyframes [⟨0, "A", 10, 20, 30⟩, ⟨5, "B", 1, 2, 3⟩] Session.init).keyframes := by
    simp [TimeOrdered, loadKeyframes]
  have hcons : (loadKeyframes [⟨0, "A", 10, 20, 30⟩, ⟨5, "B", 1, 2, 3⟩] Session.init).Consistent := by
    simp [Session.Consistent, loadKeyframes, Session.init]
  ⟨((update_selects_last_keyframe _ 3 hordered hcons).1 ⟨0, "A", 10, 20, 30⟩ rfl
      (by
        simp only [lastQualifying, loadKeyframes, List.filter]
        norm_num)).1,
    ((update_selects_last_keyframe _ 6 hordered hcons).1 ⟨5, "B", 1, 2, 3⟩ rfl
      (by
        simp only [lastQualifying, loadKeyframes, List.filter]
        norm_num)).1⟩

/-- C8 fails on the code: with the loaded list `[(0, "A"), (10, "B"), (5, "C")]` and
`t = 6` the last qualifying entry in list order is `(5, "C")`, but the scan
stops at `(10, "B")` and `update(6)` makes `"A"` the active camera. -/
theorem update_misses_entry_after_late_one :
    lastQualifying 6 [⟨0, "A", 0, 0, 0⟩, ⟨10, "B", 0, 0, 0⟩, ⟨5, "C", 0, 0, 0⟩]
      = some ⟨5, "C", 0, 0, 0⟩ ∧
    scanKeyframes 6 [⟨0, "A", 0, 0, 0⟩, ⟨10, "B", 0, 0, 0⟩, ⟨5, "C", 0, 0, 0⟩] none
      = some ⟨0, "A", 0, 0, 0⟩ ∧
    (update 6 (loadKeyframes [⟨0, "A", 0, 0, 0⟩, ⟨10, "B", 0, 0, 0⟩, ⟨5, "C", 0, 0, 0⟩]
      Session.init)).activeCamVal = some "A" := by
  have hscan : scanKeyframes 6 [⟨0, "A", 0, 0, 0⟩, ⟨10, "B", 0, 0, 0⟩, ⟨5, "C", 0, 0, 0⟩] none
      = some ⟨0, "A", 0, 0, 0⟩ := by
    simp only [scanKeyframes]
    norm_num
  refine ⟨?_, hscan, ?_⟩
  · simp only [lastQualifying, List.filter]
    norm_num
  · exact (update_of_scan_some 6 _ ⟨0, "A", 0, 0, 0⟩ rfl
      (by simp [Session.Consistent, loadKeyframes, Session.init]) hscan).1

/-- C8 as amended: for every loaded keyframe list, sorted or not, `update(t)` while
playing selects the last entry of the longest initial run of entries with
`time ≤ t` (nothing when that run is empty); an entry with `time > t` ends the
run, so the entries placed after it are not examined. -/
theorem update_selects_last_of_qualifying_run (s : Session) (t : ℚ)
    (hplay : s.isPlaying = true) (hcons : s.Consistent) :
    scanKeyframes t s.keyframes none = (qualifyingRun t s.keyframes).getLast? ∧
    (∀ k : Keyframe, (qualifyingRun t s.keyframes).getLast? = some k →
      (update t s).activeCamVal = some k.cameraName ∧
      (update t s).cameraPitch = k.pitch ∧
      (update t s).cameraYaw = k.yaw ∧
      (update t s).cameraRoll = k.roll) ∧
    ((qualifyingRun t s.keyframes).getLast? = none → update t s = s) ∧
    (∀ (pre post : List Keyframe) (late : Keyframe),
      s.keyframes = pre ++ late :: post → t < late.time →
        qualifyingRun t s.keyframes = qualifyingRun t pre) := by
  refine ⟨scanKeyframes_none t s.keyframes, ?_, ?_, ?_⟩
  · intro k hk
    exact update_of_scan_some t s k hplay hcons ((scanKeyframes_none t s.keyframes).trans hk)
  · intro h
    exact update_of_scan_none t s ((scanKeyframes_none t s.keyframes).trans h)
  · intro pre post late hsplit hlate
    rw [hsplit]
    exact qualifyingRun_append_late t pre post late hlate

/-- C8 as amended, on the unsorted list `[(0, "A"), (10, "B"), (5, "C")]` at `t = 6`. -/
theorem update_selects_last_of_qualifying_run_witness :
    (update 6 (loadKeyframes [⟨0, "A", 0, 0, 0⟩, ⟨10, "B", 0, 0, 0⟩, ⟨5, "C", 0, 0, 0⟩]
      Session.init)).cameraPitch = 0 ∧
    qualifyingRun 6 [⟨0, "A", 0, 0, 0⟩, ⟨10, "B", 0, 0, 0⟩, ⟨5, "C", 0, 0, 0⟩]
      = qualifyingRun 6 [⟨0, "A", 0, 0, 0⟩] :=
  have h := update_selects_last_of_qualifying_run
    (loadKeyframes [⟨0, "A", 0, 0, 0⟩, ⟨10, "B", 0, 0, 0⟩, ⟨5, "C", 0, 0, 0⟩] Session.init) 6 rfl
    (by simp [Session.Consistent, loadKeyframes, Session.init])
  ⟨(h.2.1 ⟨0, "A", 0, 0, 0⟩
      (by
        simp only [qualifyingRun, loadKeyframes, List.takeWhile]
        norm_num)).2.1,
    h.2.2.2 [⟨0, "A", 0, 0, 0⟩] [⟨5, "C", 0, 0, 0⟩] ⟨10, "B", 0, 0, 0⟩ rfl (by norm_num)⟩

/-! ## Camera recorder: recording -/

theorem append_singleton_ne {α : Type} (l : List α) (a : α) : l ++ [a] ≠ l := by
  intro h
  have := congrArg List.length h
  simp at this

theorem logAngles_of_close (s : Session) (lastKf : Keyframe) (hrec : s.isRecording = true)
    (hlast : s.keyframes.getLast? = some lastKf) (hclose : ¬ s.angleMoved lastKf) :
    logAngles s = s := by
  unfold Session.angleMoved at hclose
  push_neg at hclose
  unfold logAngles
  simp only [hrec, hlast, Bool.not_true, Bool.false_eq_true, if_false]
  rw [if_pos hclose]

theorem logAngles_of_moved (s : Session) (lastKf : Keyframe) (hrec : s.isRecording = true)
    (hlast : s.keyframes.getLast? = some lastKf) (hmoved : s.angleMoved lastKf) :
    logAngles s = { s with keyframes := s.keyframes ++ [s.angleKeyframe] } := by
  have hnot : ¬ (|lastKf.pitch - s.cameraPitch| < 1 / 2 ∧ |lastKf.yaw - s.cameraYaw| < 1 / 2 ∧
      |lastKf.roll - s.cameraRoll| < 1 / 2) := by
    intro h
    unfold Session.angleMoved at hmoved
    rcases hmoved with h1 | h1 | h1
    · exact absurd h.1 (not_lt.mpr h1)
    · exact absurd h.2.1 (not_lt.mpr h1)
    · exact absurd h.2.2 (not_lt.mpr h1)
  unfold logAngles
  simp only [hrec, hlast, Bool.not_true, Bool.false_eq_true, if_false]
  rw [if_neg hnot]
  rfl

/-- C9: while recording with a non-empty keyframe list, `logAngles()` appends exactly
one keyframe (time stamp, active camera name or "Default Chase", current
pitch / yaw / roll) if and only if one of the three angles is at least `0.5`
away from the last keyframe's, and otherwise leaves the list as it is; when
not recording it changes nothing. -/
theorem logAngles_deadband (s : Session) :
    (∀ lastKf : Keyframe, s.isRecording = true → s.keyframes.getLast? = some lastKf →
      ((logAngles s).keyframes = s.keyframes ++ [s.angleKeyframe] ↔ s.angleMoved lastKf) ∧
      ((logAngles s).keyframes = s.keyframes ↔ ¬ s.angleMoved lastKf)) ∧
    (s.isRecording = false → logAngles s = s) := by
  constructor
  · intro lastKf hrec hlast
    by_cases hmoved : s.angleMoved lastKf
    · have h := logAngles_of_moved s lastKf hrec hlast hmoved
      constructor
      · exact ⟨fun _ => hmoved, fun _ => by rw [h]⟩
      · constructor
        · intro heq
          rw [h] at heq
          exact absurd heq (append_singleton_ne _ _)
        · intro hn
          exact absurd hmoved hn
    · have h := logAngles_of_close s lastKf hrec hlast hmoved
      constructor
      · constructor
        · intro heq
          rw [h] at heq
          exact absurd heq.symm (append_singleton_ne _ _)
        · intro hm
          exact absurd hm hmoved
      · exact ⟨fun _ => hmoved, fun _ => by rw [h]⟩
  · intro hrec
    simp [logAngles, hrec]

/-- C9 at a concrete input: recording started with all angles `0`, then the pitch
slider moved to `1`: `logAngles()` appends the keyframe `(0, "Default Chase", 1, 0, 0)`. -/
theorem logAngles_deadband_witness :
    (logAngles (setCameraAngles 1 0 0 (startRecording Session.init))).keyframes
      = [⟨0, "Default Chase", 0, 0, 0⟩, ⟨0, "Default Chase", 1, 0, 0⟩] :=
  have h := ((logAngles_deadband (setCameraAngles 1 0 0 (startRecording Session.init))).1
    ⟨0, "Default Chase", 0, 0, 0⟩ rfl rfl).1.mpr
      (Or.inl (by norm_num [setCameraAngles, startRecording, logSwitch, Session.init]))
  h.trans rfl

/-! ## Camera recorder: order of the recorded keyframes -/

theorem Session.Extends.refl (s : Session) : s.Extends s :=
  ⟨rfl, rfl, [], by simp, by simp⟩

theorem recordTime_congr (s1 s2 : Session) (h1 : s2.isRacing = s1.isRacing)
    (h2 : s2.raceTime = s1.raceTime) : s2.recordTime = s1.recordTime := by
  unfold Session.recordTime
  rw [h1, h2]

theorem Session.Extends.trans {s1 s2 s3 : Session} (h12 : s1.Extends s2)
    (h23 : s2.Extends s3) : s1.Extends s3 := by
  obtain ⟨a1, a2, e1, a3, a4⟩ := h12
  obtain ⟨b1, b2, e2, b3, b4⟩ := h23
  refine ⟨b1.trans a1, b2.trans a2, e1 ++ e2, ?_, ?_⟩
  · rw [b3, a3, List.append_assoc]
  · intro k hk
    rcases List.mem_append.mp hk with h | h
    · exact a4 k h
    · rw [b4 k h]
      exact recordTime_congr s1 s2 a1 a2

theorem Session.ClockInv.extend {s1 s2 : Session} (hinv : s1.ClockInv) (hext : s1.Extends s2) :
    s2.ClockInv := by
  obtain ⟨a1, a2, extra, a3, a4⟩ := hext
  have htime : s2.recordTime = s1.recordTime := recordTime_congr s1 s2 a1 a2
  constructor
  · unfold TimeOrdered
    rw [a3, List.pairwise_append]
    refine ⟨hinv.1, ?_, ?_⟩
    · rw [List.pairwise_iff_forall_sublist]
      intro a b hab
      have ha : a ∈ extra := hab.subset (by simp)
      have hb : b ∈ extra := hab.subset (by simp)
      rw [a4 a ha, a4 b hb]
    · intro a ha b hb
      rw [a4 b hb]
      exact hinv.2 a ha
  · intro k hk
    rw [a3] at hk
    rw [htime]
    rcases List.mem_append.mp hk with h | h
    · exact hinv.2 k h
    · exact le_of_eq (a4 k h)

theorem logSwitch_extends (name : String) (s : Session) : s.Extends (logSwitch name s) := by
  unfold logSwitch
  split
  · exact Session.Extends.refl s
  · exact ⟨rfl, rfl, _, rfl, by simp⟩

theorem extends_of_fields (s1 s2 : Session) (h1 : s2.isRacing = s1.isRacing)
    (h2 : s2.raceTime = s1.raceTime) (h3 : s2.keyframes = s1.keyframes) : s1.Extends s2 :=
  ⟨h1, h2, [], by simp [h3], by simp⟩

theorem setWindowActiveCameraName_extends (val : Option String) (s : Session) :
    s.Extends (setWindowActiveCameraName val s) :=
  (extends_of_fields s { s with activeCamVal := val } rfl rfl rfl).trans
    (logSwitch_extends _ _)

theorem updateCameraManagerUI_extends (s : Session) : s.Extends (updateCameraManagerUI s) :=
  (setWindowActiveCameraName_extends s.activeCameraName s).trans
    (extends_of_fields _ _ rfl rfl rfl)

theorem selectCamera_extends (name : Option String) (s : Session) :
    s.Extends (selectCamera name s) :=
  (extends_of_fields s { s with activeCameraName := name } rfl rfl rfl).trans
    (updateCameraManagerUI_extends _)

theorem setActiveCamera_extends (name : String) (s : Session) :
    s.Extends (setActiveCamera name s) := by
  unfold setActiveCamera
  split
  · exact (extends_of_fields s { s with activeCameraName := some name } rfl rfl rfl).trans
      (updateCameraManagerUI_extends _)
  · exact Session.Extends.refl s

theorem update_extends (time : ℚ) (s : Session) : s.Extends (update time s) := by
  unfold update
  split
  · exact Session.Extends.refl s
  · split
    · exact Session.Extends.refl s
    · rename_i activeKey _
      refine Session.Extends.trans ?_ (extends_of_fields _ _ rfl rfl rfl)
      split
      · split
        · exact setActiveCamera_extends _ s
        · simp only
          split
          · exact (setWindowActiveCameraName_extends _ s).trans
              (updateCameraManagerUI_extends _)
          · exact setWindowActiveCameraName_extends _ s
      · exact Session.Extends.refl s

theorem logAngles_extends (s : Session) : s.Extends (logAngles s) := by
  unfold logAngles
  split
  · exact Session.Extends.refl s
  · split
    · split
      · exact Session.Extends.refl s
      · exact ⟨rfl, rfl, _, rfl, by simp⟩
    · exact ⟨rfl, rfl, _, rfl, by simp⟩

theorem startRecording_clockInv (s : Session) : (startRecording s).ClockInv := by
  have h : (startRecording s).keyframes =
      [⟨s.recordTime, orDefaultChase s.activeCamVal, s.cameraPitch, s.cameraYaw,
        s.cameraRoll⟩] := by
    simp [startRecording, logSwitch, Session.recordTime]
  have ht : (startRecording s).recordTime = s.recordTime := by
    simp [startRecording, logSwitch, Session.recordTime]
  constructor
  · unfold TimeOrdered
    rw [h]
    simp
  · intro k hk
    rw [h] at hk
    rw [ht, List.mem_singleton.mp hk]

theorem advanceRaceTime_clockInv (delta : ℚ) (s : Session) (hdelta : 0 ≤ delta)
    (hinv : s.ClockInv) : (advanceRaceTime delta s).ClockInv := by
  unfold advanceRaceTime
  split
  · rename_i hr
    refine ⟨hinv.1, fun k hk => ?_⟩
    have := hinv.2 k hk
    simp only [Session.recordTime, hr, if_true] at this ⊢
    linarith
  · exact hinv

theorem logAngles_if_extends (s s2 : Session) (h : s.Extends s2) :
    s.Extends (if s2.isRecording && s2.isRacing then logAngles s2 else s2) := by
  split
  · exact h.trans (logAngles_extends s2)
  · exact h

theorem recorderFrame_extends (s : Session) : s.Extends (recorderFrame s) := by
  have h2 : s.Extends (if s.isPlaying && s.isRacing then update s.raceTime s else s) := by
    split
    · exact update_extends _ s
    · exact Session.Extends.refl s
  exact logAngles_if_extends s _ h2

theorem animateFrame_clockInv (elapsed : ℚ) (cameraLogic : Bool) (s : Session)
    (helapsed : 0 ≤ elapsed) (hinv : s.ClockInv) :
    (animateFrame elapsed cameraLogic s).ClockInv := by
  have h1 := advanceRaceTime_clockInv (frameDelta elapsed) s
    (le_min helapsed (by norm_num)) hinv
  unfold animateFrame
  simp only
  split
  · exact h1.extend (recorderFrame_extends _)
  · exact h1

theorem RecOp.apply_clockInv (op : RecOp) (s : Session) (hkeep : op.keepsClock s = true)
    (hinv : s.ClockInv) : (op.apply s).ClockInv := by
  cases op with
  | startRecording => exact startRecording_clockInv s
  | frame elapsed cameraLogic =>
    exact animateFrame_clockInv elapsed cameraLogic s (by simpa [RecOp.keepsClock] using hkeep) hinv
  | selectCamera name => exact hinv.extend (selectCamera_extends name s)
  | setCameraAngles p y r => exact hinv.extend (extends_of_fields _ _ rfl rfl rfl)
  | logAngles => exact hinv.extend (logAngles_extends s)
  | startRace a =>
    have hr : s.isRacing = false := by simpa [RecOp.keepsClock] using hkeep
    have h0 : s.recordTime = 0 := by simp [Session.recordTime, hr]
    simp only [RecOp.apply, PathRace.startRace]
    split
    · exact hinv
    · refine ⟨hinv.1, fun k hk => ?_⟩
      have := hinv.2 k hk
      rw [h0] at this
      simpa [Session.recordTime] using this
  | resetRace =>
    have hr : s.isRacing = false := by simpa [RecOp.keepsClock] using hkeep
    have h0 : s.recordTime = 0 := by simp [Session.recordTime, hr]
    refine ⟨hinv.1, fun k hk => ?_⟩
    have := hinv.2 k hk
    rw [h0] at this
    simpa [RecOp.apply, PathRace.resetRace, Session.recordTime] using this

theorem runOps_clockInv (ops : List RecOp) (s : Session) (hkeep : keepClock ops s = true)
    (hinv : s.ClockInv) : (runOps ops s).ClockInv := by
  induction ops generalizing s with
  | nil => exact hinv
  | cons op rest ih =>
    simp only [keepClock, Bool.and_eq_true] at hkeep
    exact ih (op.apply s) hkeep.2 (RecOp.apply_clockInv op s hkeep.1 hinv)

/-- C10 fails on the code: recording is started, the race is started and runs for
one frame of `0.1` s (race time `0.05`), camera "A" is selected (keyframe at
`0.05`), then `resetRace()` puts the race time back to `0` and the next camera
switch is logged at time `0`, after the keyframe at `0.05`. -/
theorem keyframes_out_of_order_after_resetRace :
    (runOps [.startRecording, .startRace true, .frame (1 / 10) true, .selectCamera (some "A"),
        .resetRace, .selectCamera none] Session.init).keyframes
      = [⟨0, "Default Chase", 0, 0, 0⟩, ⟨1 / 20, "A", 0, 0, 0⟩, ⟨0, "Default Chase", 0, 0, 0⟩] ∧
    ¬ TimeOrdered
      (runOps [.startRecording, .startRace true, .frame (1 / 10) true, .selectCamera (some "A"),
        .resetRace, .selectCamera none] Session.init).keyframes := by
  have h : (runOps [.startRecording, .startRace true, .frame (1 / 10) true,
        .selectCamera (some "A"), .resetRace, .selectCamera none] Session.init).keyframes
      = [⟨0, "Default Chase", 0, 0, 0⟩, ⟨1 / 20, "A", 0, 0, 0⟩,
          ⟨0, "Default Chase", 0, 0, 0⟩] := by
    simp [runOps, RecOp.apply, startRecording, startRace, resetRace, animateFrame,
      advanceRaceTime, recorderFrame, selectCamera, updateCameraManagerUI,
      setWindowActiveCameraName, logSwitch, logAngles, orDefaultChase, Session.recordTime,
      frameDelta, Session.init]
    norm_num
  refine ⟨h, ?_⟩
  rw [h]
  unfold TimeOrdered
  intro hp
  have := (List.pairwise_cons.mp (List.pairwise_cons.mp hp).2).1
    ⟨0, "Default Chase", 0, 0, 0⟩ (by simp)
  norm_num at this

/-- C10 as amended: for every sequence of operations performed while recording
(`startRecording`, race frames with non-negative elapsed time, camera-name
switches, slider changes, `logAngles`, and `startRace` / `resetRace` invoked
only while no race is running), the keyframe list is ordered by non-decreasing
time. -/
theorem recorded_keyframes_time_ordered (s0 : Session) (ops : List RecOp)
    (hkeep : keepClock ops (startRecording s0) = true) :
    TimeOrdered (runOps ops (startRecording s0)).keyframes :=
  (runOps_clockInv ops (startRecording s0) hkeep (startRecording_clockInv s0)).1

/-- C10 as amended, at a concrete input: recording, then a race started from rest,
two frames with a camera switch and a slider change in between. -/
theorem recorded_keyframes_time_ordered_witness :
    TimeOrdered
      (runOps [.startRace true, .frame (1 / 10) true, .selectCamera (some "A"),
        .setCameraAngles 1 0 0, .frame (1 / 20) true, .logAngles]
        (startRecording Session.init)).keyframes :=
  recorded_keyframes_time_ordered Session.init
    [.startRace true, .frame (1 / 10) true, .selectCamera (some "A"),
      .setCameraAngles 1 0 0, .frame (1 / 20) true, .logAngles]
    (by
      simp [keepClock, RecOp.keepsClock, RecOp.apply, startRecording, startRace, animateFrame,
        advanceRaceTime, recorderFrame, selectCamera, updateCameraManagerUI,
        setWindowActiveCameraName, logSwitch, logAngles, orDefaultChase, Session.recordTime,
        frameDelta, Session.init])

/-! ## Camera recorder: recording and playing exclude each other -/

theorem Session.SameFlags.chain {s1 s2 s3 : Session} (h12 : s1.SameFlags s2)
    (h23 : s2.SameFlags s3) : s1.SameFlags s3 :=
  ⟨h23.1.trans h12.1, h23.2.trans h12.2⟩

theorem Session.Exclusive.of_sameFlags {s1 s2 : Session} (h : s1.Exclusive)
    (hflags : s1.SameFlags s2) : s2.Exclusive := by
  unfold Session.Exclusive at *
  rw [hflags.1, hflags.2]
  exact h

theorem logSwitch_sameFlags (name : String) (s : Session) : s.SameFlags (logSwitch name s) :=
  ⟨(logSwitch_fields name s).1, (logSwitch_fields name s).2.1⟩

theorem updateCameraManagerUI_sameFlags (s : Session) :
    s.SameFlags (updateCameraManagerUI s) := by
  have h := logSwitch_sameFlags (orDefaultChase s.activeCameraName)
    { s with activeCamVal := s.activeCameraName }
  exact ⟨h.1, h.2⟩

theorem setActiveCamera_sameFlags (name : String) (s : Session) :
    s.SameFlags (setActiveCamera name s) := by
  unfold setActiveCamera
  split
  · have h := updateCameraManagerUI_sameFlags { s with activeCameraName := some name }
    exact ⟨h.1, h.2⟩
  · exact ⟨rfl, rfl⟩

theorem logAngles_sameFlags (s : Session) : s.SameFlags (logAngles s) := by
  unfold logAngles
  split
  · exact ⟨rfl, rfl⟩
  · split
    · split
      · exact ⟨rfl, rfl⟩
      · exact ⟨rfl, rfl⟩
    · exact ⟨rfl, rfl⟩

theorem update_sameFlags (time : ℚ) (s : Session) : s.SameFlags (update time s) := by
  unfold update
  split
  · exact ⟨rfl, rfl⟩
  · split
    · exact ⟨rfl, rfl⟩
    · rename_i activeKey _
      refine Session.SameFlags.chain ?_ (⟨rfl, rfl⟩ : Session.SameFlags _ _)
      split
      · split
        · exact setActiveCamera_sameFlags _ s
        · simp only
          split
          · exact (logSwitch_sameFlags _ _).chain (updateCameraManagerUI_sameFlags _)
              |> fun h => ⟨h.1, h.2⟩
          · have h := logSwitch_sameFlags (orDefaultChase (some activeKey.cameraName))
              { s with activeCamVal := some activeKey.cameraName }
            exact ⟨h.1, h.2⟩
      · exact ⟨rfl, rfl⟩

theorem startRecording_exclusive (s : Session) : (startRecording s).Exclusive := by
  have h := logSwitch_sameFlags (orDefaultChase s.activeCamVal)
    { s with isRecording := true, isPlaying := false, keyframes := [] }
  intro hboth
  have hp : (startRecording s).isPlaying = false := h.2
  rw [hp] at hboth
  exact absurd hboth.2 (by decide)

theorem loadKeyframes_exclusive (keyframes : List Keyframe) (s : Session) :
    (loadKeyframes keyframes s).Exclusive := by
  intro hboth
  exact absurd hboth.1 (by simp [loadKeyframes])

theorem loadJSON_exclusive (quatOfEuler : EulerAngles → Quat) (json : Option CameraDoc)
    (w : Studio) (h : w.session.Exclusive) : (loadJSON quatOfEuler json w).session.Exclusive := by
  have hreplay : ∀ (data : CameraDoc) (w1 : Studio), w1.session.Exclusive →
      (if data.docType = some "RaceReplay" ∨ data.keyframes.isSome then
        match data.keyframes with
        | some keyframes => { w1 with session := loadKeyframes keyframes w1.session }
        | none => w1
      else w1).session.Exclusive := by
    intro data w1 h1
    split
    · split
      · exact loadKeyframes_exclusive _ _
      · exact h1
    · exact h1
  unfold loadJSON
  split
  · exact h
  · exact h
  · rename_i data cams _
    simp only
    split
    · split
      · exact h
      · split
        · exact h
        · apply hreplay
          simp only
          split
          · exact h.of_sameFlags (updateCameraManagerUI_sameFlags _)
          · exact h
    · exact hreplay data w h

theorem RecorderOp.apply_exclusive (quatOfEuler : EulerAngles → Quat) (op : RecorderOp)
    (w : Studio) (h : w.session.Exclusive) : (op.apply quatOfEuler w).session.Exclusive := by
  cases op with
  | startRecording => exact startRecording_exclusive _
  | stopRecording =>
    intro hboth
    exact absurd hboth.1 (by simp [RecorderOp.apply, PathRace.stopRecording])
  | loadJSON json => exact loadJSON_exclusive quatOfEuler json w h
  | update time => exact h.of_sameFlags (update_sameFlags time _)
  | logSwitch cameraName => exact h.of_sameFlags (logSwitch_sameFlags cameraName _)
  | logAngles => exact h.of_sameFlags (logAngles_sameFlags _)

/-- C11: from a recorder that neither records nor plays, after any sequence of
`startRecording`, `stopRecording`, `loadJSON` (of any document, parsed or
not), `update`, `logSwitch` and `logAngles`, `isRecording` and `isPlaying` are
never both true. -/
theorem recording_playing_exclusive (quatOfEuler : EulerAngles → Quat) (w : Studio)
    (ops : List RecorderOp) (hrec : w.session.isRecording = false)
    (hplay : w.session.isPlaying = false) :
    ¬ ((runRecorderOps quatOfEuler ops w).session.isRecording = true ∧
       (runRecorderOps quatOfEuler ops w).session.isPlaying = true) := by
  have hinit : w.session.Exclusive := by
    intro hboth
    rw [hrec, hplay] at hboth
    exact absurd hboth.1 (by decide)
  clear hrec hplay
  induction ops generalizing w with
  | nil => exact hinit
  | cons op rest ih => exact ih _ (RecorderOp.apply_exclusive quatOfEuler op w hinit)

/-- C11 at a concrete input: recording is started, a replay document is loaded
(playing on, recording off), recording is started again and stopped. -/
theorem recording_playing_exclusive_witness :
    ¬ ((runRecorderOps (fun _ => ⟨0, 0, 0, 1⟩)
          [.startRecording, .loadJSON (some ⟨some "RaceReplay", none, some [⟨0, "A", 0, 0, 0⟩]⟩),
            .update 1, .startRecording, .logAngles, .stopRecording]
          ⟨Session.init, some []⟩).session.isRecording = true ∧
       (runRecorderOps (fun _ => ⟨0, 0, 0, 1⟩)
          [.startRecording, .loadJSON (some ⟨some "RaceReplay", none, some [⟨0, "A", 0, 0, 0⟩]⟩),
            .update 1, .startRecording, .logAngles, .stopRecording]
          ⟨Session.init, some []⟩).session.isPlaying = true) :=
  recording_playing_exclusive (fun _ => ⟨0, 0, 0, 1⟩) ⟨Session.init, some []⟩ _ rfl rfl

/-! ## Path editor: closing the loop -/

theorem updateCurve_forceClosedLoop (e : Editor) :
    (updateCurve e).forceClosedLoop = e.forceClosedLoop := by
  unfold updateCurve
  split <;> rfl

theorem updateCurve_curveLine (e : Editor) (h : 2 ≤ e.waypoints.length) :
    (updateCurve e).curveLine = some ⟨e.waypoints, isClosedOf e.forceClosedLoop e.waypoints⟩ := by
  unfold updateCurve
  rw [if_neg (by omega)]

theorem addWaypoint_forceClosedLoop (p : Vec3) (r : Bool) (e : Editor) :
    (addWaypoint p r e).forceClosedLoop = e.forceClosedLoop := by
  unfold addWaypoint
  simp only [updateCurve_forceClosedLoop]
  cases r <;> rfl

theorem foldl_addWaypoint_forceClosedLoop (state : List Vec3) (e : Editor) :
    (state.foldl (fun acc pos => addWaypoint pos false acc) e).forceClosedLoop =
      e.forceClosedLoop := by
  induction state generalizing e with
  | nil => rfl
  | cons p rest ih => simp [ih, addWaypoint_forceClosedLoop]

theorem restoreState_forceClosedLoop (state : List Vec3) (e : Editor) :
    (restoreState state e).forceClosedLoop = e.forceClosedLoop := by
  simp [restoreState, updateCurve_forceClosedLoop, foldl_addWaypoint_forceClosedLoop]

theorem undo_forceClosedLoop (e : Editor) : (undo e).forceClosedLoop = e.forceClosedLoop := by
  unfold undo
  split
  · rfl
  · rw [restoreState_forceClosedLoop]

theorem redo_forceClosedLoop (e : Editor) : (redo e).forceClosedLoop = e.forceClosedLoop := by
  unfold redo
  split
  · rfl
  · rw [restoreState_forceClosedLoop]

theorem closeLoop_forceClosedLoop_of_true (e : Editor) (h : e.forceClosedLoop = true) :
    (closeLoop e).forceClosedLoop = true := by
  unfold closeLoop
  split
  · exact h
  · rw [updateCurve_forceClosedLoop]

/-- Once set, `window.forceClosedLoop` survives every editor operation: none of
`addWaypoint`, `closeLoop`, `undo`, `redo` and clear resets it. -/
theorem runEditorOps_forceClosedLoop (ops : List EditorOp) (e : Editor)
    (h : e.forceClosedLoop = true) : (runEditorOps ops e).forceClosedLoop = true := by
  induction ops generalizing e with
  | nil => exact h
  | cons op rest ih =>
    apply ih
    cases op with
    | addWaypoint p => exact (addWaypoint_forceClosedLoop p true e).trans h
    | closeLoop => exact closeLoop_forceClosedLoop_of_true e h
    | undo => exact (undo_forceClosedLoop e).trans h
    | redo => exact (redo_forceClosedLoop e).trans h
    | clear => exact h

/-- C12: `closeLoop` is rejected exactly when fewer than three waypoints exist. With
fewer than three the editor (waypoints, undo and redo stacks, forced-closed
flag) is unchanged. With three or more the waypoint positions are unchanged,
the flag is set, the curve is rebuilt closed, and after any further editor
operations every curve build (two or more waypoints) uses `closed = true`. -/
theorem closeLoop_rejected_iff_fewer_than_three (e : Editor) :
    (closeLoop e = e ↔ e.waypoints.length < 3) ∧
    (3 ≤ e.waypoints.length →
      (closeLoop e).waypoints = e.waypoints ∧
      (closeLoop e).forceClosedLoop = true ∧
      (closeLoop e).curveLine = some ⟨e.waypoints, true⟩ ∧
      ∀ ops : List EditorOp, 2 ≤ (runEditorOps ops (closeLoop e)).waypoints.length →
        (updateCurve (runEditorOps ops (closeLoop e))).curveLine =
          some ⟨(runEditorOps ops (closeLoop e)).waypoints, true⟩) := by
  have hset : 3 ≤ e.waypoints.length → (closeLoop e).forceClosedLoop = true := by
    intro h
    unfold closeLoop
    rw [if_neg (by omega), updateCurve_forceClosedLoop]
  constructor
  · constructor
    · intro heq
      by_contra hlen
      have hundo : (closeLoop e).undoStack = e.waypoints :: e.undoStack := by
        unfold closeLoop
        rw [if_neg hlen, updateCurve_undoStack]
        rfl
      rw [heq] at hundo
      have := congrArg List.length hundo
      simp at this
    · intro hlen
      unfold closeLoop
      rw [if_pos hlen]
  · intro hlen
    refine ⟨?_, hset hlen, ?_, ?_⟩
    · unfold closeLoop
      rw [if_neg (by omega), updateCurve_waypoints]
      rfl
    · unfold closeLoop
      rw [if_neg (by omega), updateCurve_curveLine _ (by
        show 2 ≤ e.waypoints.length
        omega)]
      simp [saveState, isClosedOf]
    · intro ops h2
      rw [updateCurve_curveLine _ h2, runEditorOps_forceClosedLoop ops _ (hset hlen)]
      simp [isClosedOf]

/-- C12 on the scenario: with two waypoints the editor is unchanged, with three
the loop is closed and the waypoints stay. -/
theorem closeLoop_rejected_iff_fewer_than_three_witness :
    closeLoop (runEditorOps [.addWaypoint ⟨0, 0, 0⟩, .addWaypoint ⟨10, 0, 0⟩] Editor.init)
      = runEditorOps [.addWaypoint ⟨0, 0, 0⟩, .addWaypoint ⟨10, 0, 0⟩] Editor.init ∧
    (closeLoop (runEditorOps
        [.addWaypoint ⟨0, 0, 0⟩, .addWaypoint ⟨10, 0, 0⟩, .addWaypoint ⟨10, 0, 10⟩]
        Editor.init)).forceClosedLoop = true :=
  ⟨(closeLoop_rejected_iff_fewer_than_three _).1.mpr
      (by simp [runEditorOps, EditorOp.apply, addWaypoint, saveState, updateCurve, Editor.init]),
    ((closeLoop_rejected_iff_fewer_than_three _).2
      (by simp [runEditorOps, EditorOp.apply, addWaypoint, saveState, updateCurve,
        Editor.init])).2.1⟩

/-- C13, evaluated on the code: three waypoints, `closeLoop`, clear, then three new
waypoints `(0,0,0)`, `(10,0,0)`, `(20,0,0)` (first and last `20` apart): the
flag `window.forceClosedLoop` is still set after the clear and the curve of
the new waypoints is built with `closed = true`. -/
theorem forced_loop_survives_clear :
    (runEditorOps
      [.addWaypoint ⟨0, 0, 0⟩, .addWaypoint ⟨10, 0, 0⟩, .addWaypoint ⟨10, 0, 10⟩, .closeLoop,
        .clear] Editor.init).forceClosedLoop = true ∧
    (runEditorOps
      [.addWaypoint ⟨0, 0, 0⟩, .addWaypoint ⟨10, 0, 0⟩, .addWaypoint ⟨10, 0, 10⟩, .closeLoop,
        .clear, .addWaypoint ⟨0, 0, 0⟩, .addWaypoint ⟨10, 0, 0⟩, .addWaypoint ⟨20, 0, 0⟩]
      Editor.init).curveLine
      = some ⟨[⟨0, 1 / 2, 0⟩, ⟨10, 1 / 2, 0⟩, ⟨20, 1 / 2, 0⟩], true⟩ := by
  constructor
  · simp [runEditorOps, EditorOp.apply, addWaypoint, closeLoop, clearPath, saveState,
      updateCurve, Editor.init]
  · simp [runEditorOps, EditorOp.apply, addWaypoint, closeLoop, clearPath, saveState,
      updateCurve, isClosedOf, Editor.init]

/-- C14, evaluated on the code: three waypoints, `closeLoop`, clear, two new
waypoints, then save as new under the name "P": the stored path has
`isClosed = true` and two points. -/
theorem saved_closed_path_with_two_points :
    (savePath false (some "P")
      (runEditorOps
        [.addWaypoint ⟨0, 0, 0⟩, .addWaypoint ⟨10, 0, 0⟩, .addWaypoint ⟨10, 0, 10⟩, .closeLoop,
          .clear, .addWaypoint ⟨0, 0, 0⟩, .addWaypoint ⟨10, 0, 0⟩] Editor.init)
      PathLibrary.init).storedPaths
      = [⟨"P", some [⟨0, 1 / 2, 0⟩, ⟨10, 1 / 2, 0⟩], true⟩] := by
  simp [savePath, saveAsNew, savedEntry, runEditorOps, EditorOp.apply, addWaypoint, closeLoop,
    clearPath, saveState, updateCurve, Editor.init, PathLibrary.init]

/-! ## Path library: loading a path file -/

/-- What `loadPathFile` does for each kind of parsed text: only a text that does
not parse, or parses to `null`, leaves the list as it is; every other value
appends one entry, with missing points when the value has none. -/
theorem loadPathFile_storedPaths (fileName : String) (parsed : Option PathDoc)
    (lib : PathLibrary) :
    (loadPathFile fileName parsed lib).storedPaths =
      match parsed with
      | none => lib.storedPaths
      | some PathDoc.null => lib.storedPaths
      | some (PathDoc.array points) => lib.storedPaths ++ [⟨fileName, some points, false⟩]
      | some (PathDoc.object points isClosed) =>
        lib.storedPaths ++ [⟨fileName, points, isClosed.getD false⟩]
      | some PathDoc.scalar => lib.storedPaths ++ [⟨fileName, none, false⟩] := by
  cases parsed with
  | none => rfl
  | some doc => cases doc <;> rfl

/-- C16, evaluated on the code: a file whose text is the empty object parses, has
neither a top-level array nor `points`, and is not skipped: an entry without
points is appended to the stored paths. -/
theorem path_file_without_points_is_stored :
    (loadPathFile "bad" (some (PathDoc.object none none)) PathLibrary.init).storedPaths
      = [⟨"bad", none, false⟩] := by
  rfl

/-! ## Assignment of a stored path -/

/-- The assignment from stored data has no test on the number of points: whenever
the library calls return, the slot is replaced (its `raceState` dropped) and
the car is teleported and stopped. -/
theorem assignPathFromData_of_library_ok (lib : CurveLib) (pathData : StoredPath)
    (points : List Vec3) (slot : AssignedPath) (c : Car) (start target : Vec3)
    (hpoints : pathData.points = some points)
    (hsample : lib.getPoints ⟨points, pathData.isClosed⟩ = true)
    (hstart : lib.getPointAt ⟨points, pathData.isClosed⟩ 0 = some start)
    (htarget : lib.getPointAt ⟨points, pathData.isClosed⟩ (1 / 100) = some target) :
    assignPathFromData lib pathData slot (some c) =
      (⟨some ⟨points, pathData.isClosed⟩, points, none⟩,
        some { c with position := start, orientation := lib.lookAt start target,
                      velocity := ⟨0, 0, 0⟩ }) := by
  unfold assignPathFromData
  simp only [hpoints, hsample, hstart, htarget, Bool.not_true, Bool.false_eq_true, if_false]

/-- The assignment from the live editor is refused with fewer than two
waypoints: slot and car are unchanged. -/
theorem assignPath_of_short (lib : CurveLib) (e : Editor) (slot : AssignedPath)
    (car : Option Car) (h : e.waypoints.length < 2) : assignPath lib e slot car = (slot, car) := by
  unfold assignPath
  rw [if_pos h]

/-- C15, evaluated on the code: a stored closed path with the single point `(5, 0, 5)`
is assigned to a slot that holds a curve and a race state, with its car at
`(1, 2, 3)` moving at `(0, -1, 0)`: the slot is replaced, its race state is
gone, and the car is moved to `(5, 0, 5)` and stopped. -/
theorem assign_single_point_path_mutates :
    assignPathFromData wrappingLib ⟨"one", some [⟨5, 0, 5⟩], true⟩
      ⟨some ⟨[⟨0, 0, 0⟩, ⟨10, 0, 0⟩], false⟩, [⟨0, 0, 0⟩, ⟨10, 0, 0⟩], some ⟨3, 2, some 0⟩⟩
      (some ⟨⟨1, 2, 3⟩, ⟨0, 0, 0, 1⟩, ⟨0, -1, 0⟩, some (1 / 2)⟩)
    = (⟨some ⟨[⟨5, 0, 5⟩], true⟩, [⟨5, 0, 5⟩], none⟩,
        some ⟨⟨5, 0, 5⟩, ⟨0, 0, 0, 1⟩, ⟨0, 0, 0⟩, some (1 / 2)⟩) := by
  simp [assignPathFromData, wrappingLib]

/-! ## Loading camera definitions -/

theorem applyDefinitions_stops (quatOfEuler : EulerAngles → Quat)
    (good rest : List CameraDefinitionDoc) (bad : CameraDefinitionDoc)
    (cams : List CameraDefinition)
    (hgood : ∀ d ∈ good, d.offset.isSome = true ∧ d.rotation.isSome = true)
    (hbad : bad.offset = none ∨ bad.rotation = none) :
    applyDefinitions quatOfEuler (good ++ bad :: rest) cams =
      ((applyDefinitions quatOfEuler good cams).1, false) := by
  induction good generalizing cams with
  | nil =>
    obtain ⟨name, offset, rotation⟩ := bad
    rcases hbad with h | h
    · simp only at h
      subst h
      cases rotation <;> rfl
    · simp only at h
      subst h
      rfl
  | cons d more ih =>
    obtain ⟨name, offset, rotation⟩ := d
    have hd := hgood ⟨name, offset, rotation⟩ (List.mem_cons_self _ _)
    cases offset with
    | none => simp at hd
    | some o =>
      cases rotation with
      | none => simp at hd
      | some r =>
        simp only [List.cons_append, applyDefinitions]
        exact ih _ (fun d hd => hgood d (List.mem_cons_of_mem _ hd))

/-- C17 fails on the code: on a car without cameras, a document with the
well-formed definition "A" followed by a definition "B" without rotation
leaves the camera list with "A" added. -/
theorem loadJSON_keeps_definitions_before_malformed :
    (loadJSON (fun _ => ⟨0, 0, 0, 1⟩)
      (some ⟨some "CameraConfigs",
        some [⟨"A", some ⟨0, 1, 2⟩, some ⟨0, 0, 0⟩⟩, ⟨"B", some ⟨0, 1, 2⟩, none⟩], none⟩)
      ⟨Session.init, some []⟩).cameras
      = some [⟨"A", ⟨0, 1, 2⟩, ⟨0, 0, 0, 1⟩⟩] ∧
    (loadJSON (fun _ => ⟨0, 0, 0, 1⟩)
      (some ⟨some "CameraConfigs",
        some [⟨"A", some ⟨0, 1, 2⟩, some ⟨0, 0, 0⟩⟩, ⟨"B", some ⟨0, 1, 2⟩, none⟩], none⟩)
      ⟨Session.init, some []⟩).cameras
      ≠ (⟨Session.init, some []⟩ : Studio).cameras := by
  constructor <;> simp [loadJSON, applyDefinitions, upsertCamera]

/-- C17 as amended: when the `cameraDefinitions` list of a document has a definition
without offset or rotation, `loadJSON` stops at the first such definition: the
camera list of the active car is the old list with the definitions before it
stored (added or replaced) in order, no later definition is stored, and the
session (keyframes included) is untouched; when that definition is the first
of the list, nothing at all has changed. -/
theorem loadJSON_stops_at_first_malformed (quatOfEuler : EulerAngles → Quat)
    (data : CameraDoc) (w : Studio) (cams : List CameraDefinition)
    (good rest : List CameraDefinitionDoc) (bad : CameraDefinitionDoc)
    (hcams : w.cameras = some cams)
    (hdefs : data.cameraDefinitions = some (good ++ bad :: rest))
    (hgood : ∀ d ∈ good, d.offset.isSome = true ∧ d.rotation.isSome = true)
    (hbad : bad.offset = none ∨ bad.rotation = none) :
    (loadJSON quatOfEuler (some data) w).cameras
      = some (applyDefinitions quatOfEuler good cams).1 ∧
    (loadJSON quatOfEuler (some data) w).session = w.session ∧
    (good = [] → loadJSON quatOfEuler (some data) w = w) := by
  have hload : loadJSON quatOfEuler (some data) w =
      { w with cameras := some (applyDefinitions quatOfEuler good cams).1 } := by
    unfold loadJSON
    simp only [hcams, hdefs, Option.isSome_some, or_true, if_true,
      applyDefinitions_stops quatOfEuler good rest bad cams hgood hbad]
  refine ⟨by rw [hload], by rw [hload], ?_⟩
  intro hnil
  rw [hload, hnil]
  obtain ⟨session, cameras⟩ := w
  simp only at hcams
  subst hcams
  rfl

/-- C17 as amended, at a concrete input: the document with "A" well-formed and "B"
without rotation, and the same document with "B" first. -/
theorem loadJSON_stops_at_first_malformed_witness :
    (loadJSON (fun _ => ⟨0, 0, 0, 1⟩)
      (some ⟨some "CameraConfigs",
        some ([⟨"A", some ⟨0, 1, 2⟩, some ⟨0, 0, 0⟩⟩] ++ ⟨"B", some ⟨0, 1, 2⟩, none⟩ :: []), none⟩)
      ⟨Session.init, some []⟩).cameras
      = some (applyDefinitions (fun _ => ⟨0, 0, 0, 1⟩)
          [⟨"A", some ⟨0, 1, 2⟩, some ⟨0, 0, 0⟩⟩] []).1 ∧
    loadJSON (fun _ => ⟨0, 0, 0, 1⟩)
      (some ⟨some "CameraConfigs",
        some ([] ++ ⟨"B", some ⟨0, 1, 2⟩, none⟩ :: [⟨"A", some ⟨0, 1, 2⟩, some ⟨0, 0, 0⟩⟩]), none⟩)
      ⟨Session.init, some []⟩ = ⟨Session.init, some []⟩ :=
  ⟨(loadJSON_stops_at_first_malformed (fun _ => ⟨0, 0, 0, 1⟩) _ ⟨Session.init, some []⟩ []
      [⟨"A", some ⟨0, 1, 2⟩, some ⟨0, 0, 0⟩⟩] [] ⟨"B", some ⟨0, 1, 2⟩, none⟩ rfl rfl
      (by
        intro d hd
        rw [List.mem_singleton.mp hd]
        exact ⟨rfl, rfl⟩)
      (Or.inr rfl)).1,
    (loadJSON_stops_at_first_malformed (fun _ => ⟨0, 0, 0, 1⟩) _ ⟨Session.init, some []⟩ []
      [] [⟨"A", some ⟨0, 1, 2⟩, some ⟨0, 0, 0⟩⟩] ⟨"B", some ⟨0, 1, 2⟩, none⟩ rfl rfl
      (by
        intro d hd
        exact absurd hd (List.not_mem_nil d))
      (Or.inr rfl)).2.2 rfl⟩

/-! ## Free-roam physics -/

theorem freeRoamSnap_at_rest (ground : Vec3 → Option Hit) (delta : ℚ) (car : Car)
    (hoffset : 0 ≤ car.groundOffset.getD 0) (hd0 : 0 ≤ delta) (hd1 : delta ≤ 1 / 10)
    (hvel : car.velocity.y = 0) (hpos : car.position.y = car.groundOffset.getD 0)
    (hflat : ∀ origin : Vec3, 0 < origin.y → ground origin = some ⟨origin.y, 0⟩) :
    (freeRoamSnap ground delta car).1.y = car.groundOffset.getD 0 ∧
    (freeRoamSnap ground delta car).2.y = 0 := by
  have hsq : delta * delta ≤ 1 / 100 := by nlinarith
  have hsq0 : 0 ≤ delta * delta := mul_nonneg hd0 hd0
  unfold freeRoamSnap
  simp only [hvel, hpos, gravity, zero_sub]
  rw [hflat _ (by
    show 0 < car.groundOffset.getD 0 + -(20 * delta) * delta + 1
    nlinarith)]
  simp only
  rw [if_pos (by
    constructor
    · nlinarith
    · nlinarith)]
  simp

theorem freeRoamStep_at_rest (ground : Vec3 → Option Hit) (delta : ℚ) (car : Car)
    (hoffset : 0 ≤ car.groundOffset.getD 0) (hd0 : 0 ≤ delta) (hd1 : delta ≤ 1 / 10)
    (hvel : car.velocity.y = 0) (hpos : car.position.y = car.groundOffset.getD 0)
    (hflat : ∀ origin : Vec3, 0 < origin.y → ground origin = some ⟨origin.y, 0⟩) :
    (freeRoamStep ground delta car).position.y = car.groundOffset.getD 0 ∧
    (freeRoamStep ground delta car).velocity.y = 0 ∧
    (freeRoamStep ground delta car).groundOffset = car.groundOffset := by
  obtain ⟨h1, h2⟩ := freeRoamSnap_at_rest ground delta car hoffset hd0 hd1 hvel hpos hflat
  unfold freeRoamStep
  simp only
  rw [if_neg (by rw [h1]; linarith)]
  exact ⟨h1, h2, rfl⟩

/-- C18: a car with `velocity.y = 0` resting at `position.y = groundOffset`
(`groundOffset ≥ 0`) over the flat ground at height `0` has, after one
free-roam step with frame time in `[0, 0.1]`, `position.y = groundOffset` and
`velocity.y = 0` again, and so after any number of such steps. -/
theorem freeRoam_resting_car_stays (ground : Vec3 → Option Hit) (car : Car)
    (hoffset : 0 ≤ car.groundOffset.getD 0)
    (hvel : car.velocity.y = 0) (hpos : car.position.y = car.groundOffset.getD 0)
    (hflat : ∀ origin : Vec3, 0 < origin.y → ground origin = some ⟨origin.y, 0⟩) :
    (∀ delta : ℚ, 0 ≤ delta → delta ≤ 1 / 10 →
      (freeRoamStep ground delta car).position.y = car.groundOffset.getD 0 ∧
      (freeRoamStep ground delta car).velocity.y = 0) ∧
    (∀ deltas : List ℚ, (∀ delta ∈ deltas, 0 ≤ delta ∧ delta ≤ 1 / 10) →
      (freeRoamSteps ground deltas car).position.y = car.groundOffset.getD 0 ∧
      (freeRoamSteps ground deltas car).velocity.y = 0) := by
  constructor
  · intro delta hd0 hd1
    obtain ⟨h1, h2, _⟩ := freeRoamStep_at_rest ground delta car hoffset hd0 hd1 hvel hpos hflat
    exact ⟨h1, h2⟩
  · intro deltas hdeltas
    induction deltas generalizing car with
    | nil => exact ⟨hpos, hvel⟩
    | cons delta rest ih =>
      have hd := hdeltas delta (List.mem_cons_self _ _)
      obtain ⟨h1, h2, h3⟩ :=
        freeRoamStep_at_rest ground delta car hoffset hd.1 hd.2 hvel hpos hflat
      have := ih (freeRoamStep ground delta car) (by rw [h3]; exact hoffset) h2
        (by rw [h3]; exact h1) (fun d hd => hdeltas d (List.mem_cons_of_mem _ hd))
      rw [h3] at this
      exact this

/-- C18 at a concrete input: a car with `groundOffset = 0.5` resting at height
`0.5` on the flat ground, three frames of `0.1`, `0.016` and `0.05` seconds. -/
theorem freeRoam_resting_car_stays_witness :
    (freeRoamSteps flatGround [1 / 10, 2 / 125, 1 / 20]
      ⟨⟨3, 1 / 2, 4⟩, ⟨0, 0, 0, 1⟩, ⟨0, 0, 0⟩, some (1 / 2)⟩).position.y = 1 / 2 ∧
    (freeRoamSteps flatGround [1 / 10, 2 / 125, 1 / 20]
      ⟨⟨3, 1 / 2, 4⟩, ⟨0, 0, 0, 1⟩, ⟨0, 0, 0⟩, some (1 / 2)⟩).velocity.y = 0 :=
  (freeRoam_resting_car_stays flatGround
    ⟨⟨3, 1 / 2, 4⟩, ⟨0, 0, 0, 1⟩, ⟨0, 0, 0⟩, some (1 / 2)⟩ (by norm_num) rfl rfl
    (by
      intro origin horigin
      simp [flatGround, horigin])).2 [1 / 10, 2 / 125, 1 / 20]
    (by
      intro delta hdelta
      simp only [List.mem_cons, List.mem_singleton, List.not_mem_nil, or_false] at hdelta
      rcases hdelta with rfl | rfl | rfl <;> norm_num)

/-- C19: in a free-roam step, when the position after integration and ground snap
is below `-50`, the car is put at height `10` with zero velocity; otherwise
that position and velocity are kept; in both cases `position.y ≥ -50` after
the step, whatever the ground query returns. -/
theorem freeRoam_fall_through_recovery (ground : Vec3 → Option Hit) (delta : ℚ) (car : Car) :
    ((freeRoamSnap ground delta car).1.y < -50 →
      (freeRoamStep ground delta car).position.y = 10 ∧
      (freeRoamStep ground delta car).velocity = ⟨0, 0, 0⟩) ∧
    (¬ (freeRoamSnap ground delta car).1.y < -50 →
      (freeRoamStep ground delta car).position = (freeRoamSnap ground delta car).1 ∧
      (freeRoamStep ground delta car).velocity = (freeRoamSnap ground delta car).2) ∧
    -50 ≤ (freeRoamStep ground delta car).position.y := by
  unfold freeRoamStep
  simp only
  refine ⟨?_, ?_, ?_⟩
  · intro h
    rw [if_pos h]
    exact ⟨rfl, rfl⟩
  · intro h
    rw [if_neg h]
    exact ⟨rfl, rfl⟩
  · split
    · norm_num
    · rename_i h
      exact not_lt.mp h

/-- C19 at a concrete input: a car at height `-49.9` falling at `10` units per
second with no ground below, one frame of `0.1` s. -/
theorem freeRoam_fall_through_recovery_witness :
    (freeRoamStep (fun _ => none) (1 / 10)
      ⟨⟨0, -499 / 10, 0⟩, ⟨0, 0, 0, 1⟩, ⟨1, -10, 0⟩, none⟩).position.y = 10 ∧
    (freeRoamStep (fun _ => none) (1 / 10)
      ⟨⟨0, -499 / 10, 0⟩, ⟨0, 0, 0, 1⟩, ⟨1, -10, 0⟩, none⟩).velocity = ⟨0, 0, 0⟩ :=
  (freeRoam_fall_through_recovery (fun _ => none) (1 / 10)
    ⟨⟨0, -499 / 10, 0⟩, ⟨0, 0, 0, 1⟩, ⟨1, -10, 0⟩, none⟩).1
    (by norm_num [freeRoamSnap, gravity])

/-! ## Manual drive -/

/-- C20: the longitudinal update of the manual drive, for every speed and every
frame time `delta` (non-negative or not): with forward held the new speed is
`min(speed + acceleration·delta, maxSpeed)`; otherwise with reverse held it is
`max(speed − 2·acceleration·delta, −0.5·maxSpeed)`; with neither held it is
`speed·friction`, replaced by `0` when its absolute value is below `0.01`. -/
theorem driveSpeed_cases (cfg : DriveConfig) (w s : Bool) (delta speed : ℚ) :
    (w = true → driveSpeed cfg w s delta speed
      = min (speed + cfg.acceleration * delta) cfg.maxSpeed) ∧
    (w = false → s = true → driveSpeed cfg w s delta speed
      = max (speed - 2 * cfg.acceleration * delta) (-(1 / 2) * cfg.maxSpeed)) ∧
    (w = false → s = false → |speed * cfg.friction| < 1 / 100 →
      driveSpeed cfg w s delta speed = 0) ∧
    (w = false → s = false → 1 / 100 ≤ |speed * cfg.friction| →
      driveSpeed cfg w s delta speed = speed * cfg.friction) := by
  refine ⟨?_, ?_, ?_, ?_⟩
  · intro hw
    simp [driveSpeed, hw]
  · intro hw hs
    simp only [driveSpeed, hw, hs, Bool.false_eq_true, if_false, if_true]
    congr 1 <;> ring
  · intro hw hs hsmall
    simp only [driveSpeed, hw, hs, Bool.false_eq_true, if_false]
    rw [if_pos hsmall]
  · intro hw hs hlarge
    simp only [driveSpeed, hw, hs, Bool.false_eq_true, if_false]
    rw [if_neg (not_lt.mpr hlarge)]

/-- C20 at a concrete input: the initial `driveConfig`, speed `34.99`, a frame of
`0.1` s with forward held: the speed is capped at `35`. -/
theorem driveSpeed_cases_witness :
    driveSpeed driveConfig true false (1 / 10) (3499 / 100)
      = min (3499 / 100 + driveConfig.acceleration * (1 / 10)) driveConfig.maxSpeed :=
  (driveSpeed_cases driveConfig true false (1 / 10) (3499 / 100)).1 rfl

/-! ## Wheel rig -/

theorem getAxis_setAxis_same (r : Vec3) (axis : Axis) (value : ℚ) :
    (r.setAxis axis value).getAxis axis = value := by
  cases axis <;> rfl

theorem getAxis_setAxis_of_ne (r : Vec3) (axis other : Axis) (value : ℚ) (h : other ≠ axis) :
    (r.setAxis axis value).getAxis other = r.getAxis other := by
  cases axis <;> cases other <;> first | rfl | exact absurd rfl h

theorem wheelRel_map (R : Wheel → Wheel → Prop) (f : Wheel → Wheel) (wheel : Option Wheel)
    (h : ∀ w : Wheel, R w (f w)) : wheelRel R wheel (wheel.map f) := by
  cases wheel with
  | none => exact trivial
  | some w => exact h w

theorem animateWheels_moved (settings : Option RotationSettings) (amount angle : ℚ)
    (wheels : WheelRig) :
    RigMoved (settings.getD defaultRotationSettings) amount angle wheels
      (animateWheels settings amount angle wheels) := by
  refine ⟨?_, ?_, ?_⟩
  · simp only [animateWheels, Option.map_map]
    exact wheelRel_map _ _ _ (fun w => ⟨rfl, rfl⟩)
  · simp only [animateWheels, Option.map_map]
    exact wheelRel_map _ _ _ (fun w => ⟨rfl, rfl⟩)
  · simp only [animateWheels]
    exact wheelRel_map _ _ _ (fun w => ⟨rfl, rfl⟩)

theorem wheelSeparated_of_moved (front : Bool) (settings : RotationSettings)
    (hne : settings.spinAxis ≠ settings.steerAxis) (amount : ℚ) (steer : Option ℚ)
    (hrear : front = false → steer = none) (before after : Wheel)
    (h : WheelMoved settings amount steer before after) :
    WheelSeparated front settings before after := by
  obtain ⟨hmesh, hpivot⟩ := h
  have hp : ∀ axis : Axis, axis ≠ settings.steerAxis →
      after.pivot.getAxis axis = before.pivot.getAxis axis := by
    intro axis haxis
    cases steer with
    | none =>
      simp only at hpivot
      rw [hpivot]
    | some angle =>
      simp only at hpivot
      rw [hpivot, getAxis_setAxis_of_ne _ _ _ _ haxis]
  refine ⟨?_, ?_, hp _ hne, ?_⟩
  · intro axis haxis
    rw [hmesh, getAxis_setAxis_of_ne _ _ _ _ haxis]
  · rw [hmesh, getAxis_setAxis_of_ne _ _ _ _ (Ne.symm hne)]
  · cases front with
    | true => simpa using hp
    | false =>
      rw [hrear rfl] at hpivot
      simpa using hpivot

theorem wheelRel_mono (R S : Wheel → Wheel → Prop) (before after : Option Wheel)
    (h : ∀ a b : Wheel, R a b → S a b) (hrel : wheelRel R before after) :
    wheelRel S before after := by
  cases before <;> cases after <;> first | exact trivial | exact hrel | exact h _ _ hrel

theorem animateWheels_separated (settings : Option RotationSettings)
    (hne : (settings.getD defaultRotationSettings).spinAxis ≠
      (settings.getD defaultRotationSettings).steerAxis)
    (amount angle : ℚ) (wheels : WheelRig) :
    RigSeparated (settings.getD defaultRotationSettings) wheels
      (animateWheels settings amount angle wheels) := by
  obtain ⟨h1, h2, h3⟩ := animateWheels_moved settings amount angle wheels
  refine ⟨?_, ?_, ?_⟩
  · exact wheelRel_mono _ _ _ _
      (wheelSeparated_of_moved true _ hne amount (some angle) (fun h => absurd h (by decide))) h1
  · exact wheelRel_mono _ _ _ _
      (wheelSeparated_of_moved true _ hne (-amount) (some angle)
        (fun h => absurd h (by decide))) h2
  · exact wheelRel_mono _ _ _ _
      (wheelSeparated_of_moved false _ hne (-amount) none (fun _ => rfl)) h3

/-- C21: with a spin axis different from the steer axis (as in the settings of both
cars and in the default), every race frame and every manual-drive frame keeps
steering and spinning apart on each wheel present: of a mesh only the
spin-axis rotation changes (its steer-axis rotation is unchanged), of a front
pivot only the steer-axis rotation changes (its spin-axis rotation is
unchanged), and the rear pivot's rotation is unchanged. -/
theorem wheel_rig_separation (settings : Option RotationSettings)
    (hne : (settings.getD defaultRotationSettings).spinAxis ≠
      (settings.getD defaultRotationSettings).steerAxis) (wheels : WheelRig) :
    (∀ (cfg : RaceConfig) (curve : Curve3) (delta : ℚ) (state : RaceState),
      ∃ after : WheelRig,
        (raceCarFrame cfg curve delta settings state (some wheels)).2 = some after ∧
        RigSeparated (settings.getD defaultRotationSettings) wheels after) ∧
    (∀ (cfg : DriveConfig) (w a s d : Bool) (delta currentSpeed currentSteerVal : ℚ),
      ∃ after : WheelRig,
        (manualDriveFrame cfg w a s d delta settings currentSpeed currentSteerVal
          (some wheels)).2.2 = some after ∧
        RigSeparated (settings.getD defaultRotationSettings) wheels after) := by
  constructor
  · intro cfg curve delta state
    exact ⟨_, rfl, animateWheels_separated settings hne _ _ wheels⟩
  · intro cfg w a s d delta currentSpeed currentSteerVal
    exact ⟨_, rfl, animateWheels_separated settings hne _ _ wheels⟩

/-- C21 at a concrete input: a car without settings of its own (default axes),
all wheels at rest, one manual-drive frame of `0.1` s at speed `10` with
forward and left held. -/
theorem wheel_rig_separation_witness :
    ∃ after : WheelRig,
      (manualDriveFrame driveConfig true true false false (1 / 10) none 10 0
        (some restingRig)).2.2 = some after ∧
      RigSeparated defaultRotationSettings restingRig after :=
  (wheel_rig_separation none (by decide) restingRig).2 driveConfig true true false false
    (1 / 10) 10 0

/-- C24 fails on the code: with all wheels at rest, a race frame of `0.1` s at
speed `2` moves the front-left mesh by `+0.1` and the rear mesh by `-0.1`, the
same as the front-right mesh: the rear wheel does not turn with the
front-left one. -/
theorem race_rear_wheel_turns_with_front_right :
    raceWheelFrame none ⟨0, 2, some 0⟩ (1 / 10) (some restingRig)
      = some { fl := some ⟨⟨1 / 10, 0, 0⟩, ⟨0, 0, 0⟩⟩, fr := some ⟨⟨-(1 / 10), 0, 0⟩, ⟨0, 0, 0⟩⟩,
               rear := some ⟨⟨-(1 / 10), 0, 0⟩, ⟨0, 0, 0⟩⟩ } := by
  simp [raceWheelFrame, animateWheels, restingRig, Wheel.spin, Wheel.steer, Vec3.setAxis,
    Vec3.getAxis, defaultRotationSettings]

/-- C24 as amended: in a race frame each wheel mesh's spin rotation changes by
magnitude `speed·0.5·delta` (the speed just updated), the front-left mesh by
`+speed·0.5·delta` and the front-right and rear meshes by `−speed·0.5·delta`;
the steer rotation of the two front pivots is set to `currentDrift·0.5`, and
the rear pivot is untouched. -/
theorem race_wheel_kinematics (cfg : RaceConfig) (curve : Curve3) (delta : ℚ)
    (settings : Option RotationSettings) (state : RaceState) (wheels : WheelRig) :
    ∃ after : WheelRig,
      (raceCarFrame cfg curve delta settings state (some wheels)).2 = some after ∧
      RigMoved (settings.getD defaultRotationSettings)
        ((raceCarFrame cfg curve delta settings state (some wheels)).1.speed * (1 / 2) * delta)
        ((raceCarFrame cfg curve delta settings state (some wheels)).1.currentDrift.getD 0
          * (1 / 2))
        wheels after :=
  ⟨_, rfl, animateWheels_moved settings _ _ wheels⟩

/-- C25 fails on the code: with all wheels at rest, a manual-drive frame of `0.1` s
with forward held from speed `10` gives the speed `10.05` and moves the
front-left mesh by `5.025 = 10.05·5·0.1`, ten times `10.05·0.5·0.1`. -/
theorem manual_wheel_spin_uses_factor_five :
    (manualDriveFrame driveConfig true false false false (1 / 10) none 10 0
      (some restingRig)).1 = 201 / 20 ∧
    (manualDriveFrame driveConfig true false false false (1 / 10) none 10 0
      (some restingRig)).2.2
      = some { fl := some ⟨⟨201 / 40, 0, 0⟩, ⟨0, 0, 0⟩⟩,
               fr := some ⟨⟨-(201 / 40), 0, 0⟩, ⟨0, 0, 0⟩⟩,
               rear := some ⟨⟨-(201 / 40), 0, 0⟩, ⟨0, 0, 0⟩⟩ } ∧
    (201 / 20 : ℚ) * (1 / 2) * (1 / 10) ≠ 201 / 40 := by
  have hspeed : driveSpeed driveConfig true false (1 / 10) 10 = 201 / 20 := by
    simp only [driveSpeed, driveConfig, if_true]
    norm_num
  have hsteer : driveSteer false false 0 = 0 := by
    simp [driveSteer, lerp]
  refine ⟨hspeed, ?_, by norm_num⟩
  simp only [manualDriveFrame, hspeed, hsteer]
  simp [manualWheelFrame, animateWheels, restingRig, Wheel.spin, Wheel.steer, Vec3.setAxis,
    Vec3.getAxis, defaultRotationSettings]
  norm_num

/-- C25 as amended: in a manual-drive frame each wheel mesh's spin rotation advances
by magnitude `speed·5·delta` (the speed just updated), with the per-wheel
signs of the race frame (front-left `+`, front-right and rear `−`), and the
two front pivots' steer rotation is set to `smoothedSteer·0.5`; it is the
wheel animation of a race frame at ten times the speed, with the smoothed
steer value in place of the drift. -/
theorem manual_wheel_kinematics (cfg : DriveConfig) (w a s d : Bool) (delta : ℚ)
    (settings : Option RotationSettings) (currentSpeed currentSteerVal : ℚ)
    (wheels : WheelRig) :
    (∃ after : WheelRig,
      (manualDriveFrame cfg w a s d delta settings currentSpeed currentSteerVal
        (some wheels)).2.2 = some after ∧
      RigMoved (settings.getD defaultRotationSettings)
        ((manualDriveFrame cfg w a s d delta settings currentSpeed currentSteerVal
          (some wheels)).1 * 5 * delta)
        ((manualDriveFrame cfg w a s d delta settings currentSpeed currentSteerVal
          (some wheels)).2.1 * (1 / 2))
        wheels after) ∧
    ∀ (speed steer distance : ℚ),
      manualWheelFrame settings speed steer delta (some wheels)
        = raceWheelFrame settings ⟨distance, 10 * speed, some steer⟩ delta (some wheels) := by
  constructor
  · exact ⟨_, rfl, animateWheels_moved settings _ _ wheels⟩
  · intro speed steer distance
    simp only [manualWheelFrame, raceWheelFrame, Option.map_some', Option.getD_some]
    congr 2
    ring

/-! ## Race motion solver: curve parameters -/

theorem jsMod1_of_nonneg (x : ℚ) (h : 0 ≤ x) : 0 ≤ jsMod1 x ∧ jsMod1 x < 1 := by
  unfold jsMod1
  rw [if_pos h]
  exact ⟨Int.fract_nonneg x, Int.fract_lt_one x⟩

/-- C27: for `distance ≥ 0` and a curve length `> 0`, the parameter
`t = (distance / length) % 1.0` is in `[0, 1)` and the look-ahead parameter
`min(t + 0.02, 0.999)` is in `[0.02, 0.999]`, so both are in `[0, 1]`. -/
theorem curve_parameters_in_domain (distance totalLength : ℚ) (hdistance : 0 ≤ distance)
    (hlength : 0 < totalLength) :
    0 ≤ curveParam distance totalLength ∧ curveParam distance totalLength < 1 ∧
    2 / 100 ≤ lookAhead (curveParam distance totalLength) ∧
    lookAhead (curveParam distance totalLength) ≤ 999 / 1000 ∧
    0 ≤ lookAhead (curveParam distance totalLength) ∧
    lookAhead (curveParam distance totalLength) ≤ 1 := by
  obtain ⟨h0, h1⟩ := jsMod1_of_nonneg (distance / totalLength) (div_nonneg hdistance hlength.le)
  have hlo : 2 / 100 ≤ lookAhead (curveParam distance totalLength) := by
    unfold lookAhead
    apply le_min
    · unfold curveParam
      linarith
    · norm_num
  have hhi : lookAhead (curveParam distance totalLength) ≤ 999 / 1000 := min_le_right _ _
  refine ⟨h0, h1, hlo, hhi, ?_, ?_⟩
  · linarith
  · linarith

/-- C27 at a concrete input: distance `25` on a curve of length `10` (`t = 0.5`). -/
theorem curve_parameters_in_domain_witness :
    0 ≤ curveParam 25 10 ∧ curveParam 25 10 < 1 ∧
    2 / 100 ≤ lookAhead (curveParam 25 10) ∧ lookAhead (curveParam 25 10) ≤ 999 / 1000 ∧
    0 ≤ lookAhead (curveParam 25 10) ∧ lookAhead (curveParam 25 10) ≤ 1 :=
  curve_parameters_in_domain 25 10 (by norm_num) (by norm_num)

/-- C28 fails on the code: the distance `9995` on a curve of length `10000` gives
`t = 0.9995`, and the look-ahead parameter is `0.999`, behind `t`. -/
theorem lookAhead_behind_near_end :
    curveParam 9995 10000 = 1999 / 2000 ∧
    lookAhead (curveParam 9995 10000) = 999 / 1000 ∧
    lookAhead (curveParam 9995 10000) < curveParam 9995 10000 := by
  have ht : curveParam 9995 10000 = 1999 / 2000 := by
    unfold curveParam jsMod1
    rw [if_pos (by norm_num)]
    have h : (9995 : ℚ) / 10000 = 1999 / 2000 := by norm_num
    rw [h, Int.fract_eq_iff]
    refine ⟨by norm_num, by norm_num, 0, by norm_num⟩
  rw [ht]
  refine ⟨rfl, ?_, ?_⟩ <;> (unfold lookAhead; norm_num)

/-- C28 as amended: for every parameter `t` in `[0, 0.999]` the look-ahead parameter
`min(t + 0.02, 0.999)` is `≥ t`; for `t` in `(0.999, 1)` it is `0.999`, which
is behind `t`. -/
theorem lookAhead_ahead_up_to_cap (t : ℚ) :
    (t ≤ 999 / 1000 → t ≤ lookAhead t) ∧
    (999 / 1000 < t → lookAhead t = 999 / 1000 ∧ lookAhead t < t) := by
  unfold lookAhead
  constructor
  · intro h
    exact le_min (by linarith) h
  · intro h
    have hmin : min (t + 2 / 100) (999 / 1000) = 999 / 1000 := min_eq_right (by linarith)
    rw [hmin]
    exact ⟨rfl, h⟩

/-- C28 as amended, at `t = 0.5` and at `t = 0.9995`. -/
theorem lookAhead_ahead_up_to_cap_witness :
    (1 / 2 : ℚ) ≤ lookAhead (1 / 2) ∧ lookAhead (1999 / 2000) < 1999 / 2000 :=
  ⟨(lookAhead_ahead_up_to_cap (1 / 2)).1 (by norm_num),
    ((lookAhead_ahead_up_to_cap (1999 / 2000)).2 (by norm_num)).2⟩

/-! ## Free-roam physics during a race -/

/-- C26 fails on the code: while a race is running, a car in the air at height `10`
(no assigned curve is involved in the physics block at all) is left as it is
by the physics block, although a free-roam step would pull it down. -/
theorem no_free_roam_while_racing :
    freeRoamFrame true true (fun _ => none) (1 / 10)
        [⟨⟨0, 10, 0⟩, ⟨0, 0, 0, 1⟩, ⟨0, 0, 0⟩, none⟩]
      = [⟨⟨0, 10, 0⟩, ⟨0, 0, 0, 1⟩, ⟨0, 0, 0⟩, none⟩] ∧
    freeRoamStep (fun _ => none) (1 / 10) ⟨⟨0, 10, 0⟩, ⟨0, 0, 0, 1⟩, ⟨0, 0, 0⟩, none⟩
      = ⟨⟨0, 49 / 5, 0⟩, ⟨0, 0, 0, 1⟩, ⟨0, -2, 0⟩, none⟩ := by
  constructor
  · rfl
  · simp [freeRoamStep, freeRoamSnap, gravity]
    norm_num

/-- C26 as amended: free-roam physics applies only while no race is running. In a
frame where a race is running no vehicle gets the free-roam step, whether its
slot has a curve or not (and a slot without curve is not moved by the race
solver either); in a frame where no race is running, with a car and the map
loaded, every vehicle gets it. -/
theorem free_roam_only_when_not_racing (ground : Vec3 → Option Hit) (delta : ℚ)
    (cars : List Car) (mapLoaded : Bool) :
    freeRoamFrame true mapLoaded ground delta cars = cars ∧
    (∀ (cfg : RaceConfig) (carLoaded : Bool) (state : RaceState),
      raceSlotFrame cfg none carLoaded delta (some state) = state) ∧
    (cars ≠ [] → freeRoamFrame false true ground delta cars
      = cars.map (freeRoamStep ground delta)) := by
  refine ⟨rfl, fun _ _ _ => rfl, ?_⟩
  intro hne
  have hlen : 0 < cars.length := List.length_pos.mpr hne
  simp [freeRoamFrame, hlen]

/-- C26 as amended, at a concrete input: the car in the air, with no race running. -/
theorem free_roam_only_when_not_racing_witness :
    freeRoamFrame false true (fun _ => none) (1 / 10)
        [⟨⟨0, 10, 0⟩, ⟨0, 0, 0, 1⟩, ⟨0, 0, 0⟩, none⟩]
      = [⟨⟨0, 10, 0⟩, ⟨0, 0, 0, 1⟩, ⟨0, 0, 0⟩, none⟩].map
          (freeRoamStep (fun _ => none) (1 / 10)) :=
  (free_roam_only_when_not_racing (fun _ => none) (1 / 10)
    [⟨⟨0, 10, 0⟩, ⟨0, 0, 0, 1⟩, ⟨0, 0, 0⟩, none⟩] true).2.2 (by simp)

/-! ## Path library: editing a stored path and saving it back -/

/-- C29, evaluated on the code: the open stored path `[(0,0,0), (10,0,0)]` is
selected, loaded into the editor (Edit Selected, confirmed) and at once saved
back as an overwrite: the stored points are now `[(0,0.5,0), (10,0.5,0)]`;
the closed flag is the same. -/
theorem edit_then_overwrite_lifts_points :
    (savePath true none
      (editSelected true Editor.init
        ⟨[⟨"track", some [⟨0, 0, 0⟩, ⟨10, 0, 0⟩], false⟩], some 0, none⟩).1
      (editSelected true Editor.init
        ⟨[⟨"track", some [⟨0, 0, 0⟩, ⟨10, 0, 0⟩], false⟩], some 0, none⟩).2).storedPaths
      = [⟨"track", some [⟨0, 1 / 2, 0⟩, ⟨10, 1 / 2, 0⟩], false⟩] := by
  simp [savePath, savedEntry, editSelected, addWaypoint, updateCurve, Editor.init]

/-! ## Path library: the closed flag written by save -/

/-- C30 fails on the code: with the three waypoints `(0,0,0)`, `(10,0,0)`, `(0,0,0.05)`
and no forced loop, the editor builds its curve closed (first and last are
`0.05` apart), and save writes `isClosed = false`. -/
theorem save_ignores_auto_closed_loop :
    (updateCurve ⟨[⟨0, 0, 0⟩, ⟨10, 0, 0⟩, ⟨0, 0, 1 / 20⟩], [], [], false, none⟩).curveLine
      = some ⟨[⟨0, 0, 0⟩, ⟨10, 0, 0⟩, ⟨0, 0, 1 / 20⟩], true⟩ ∧
    (savePath false (some "P") ⟨[⟨0, 0, 0⟩, ⟨10, 0, 0⟩, ⟨0, 0, 1 / 20⟩], [], [], false, none⟩
      PathLibrary.init).storedPaths
      = [⟨"P", some [⟨0, 0, 0⟩, ⟨10, 0, 0⟩, ⟨0, 0, 1 / 20⟩], false⟩] := by
  constructor
  · simp [updateCurve, isClosedOf, Vec3.distSq]
    norm_num
  · simp [savePath, saveAsNew, savedEntry, PathLibrary.init]

/-- C30 as amended: the `isClosed` value written by save is `window.forceClosedLoop`.
For an editor state with at least two waypoints it equals the closed value of
the editor's curve build of those waypoints exactly when the loop is forced or
the waypoints are not auto-closed (more than two points with first and last
within `0.1`); for an auto-closed, not forced path the editor builds a closed
curve and save writes `false`. -/
theorem saved_closed_flag_is_forced_flag (name : String) (e : Editor)
    (hlen : 2 ≤ e.waypoints.length) :
    (savedEntry name e).isClosed = e.forceClosedLoop ∧
    (updateCurve e).curveLine = some ⟨e.waypoints, isClosedOf e.forceClosedLoop e.waypoints⟩ ∧
    ((savedEntry name e).isClosed = isClosedOf e.forceClosedLoop e.waypoints ↔
      (e.forceClosedLoop = true ∨ isClosedOf false e.waypoints = false)) := by
  refine ⟨rfl, updateCurve_curveLine e hlen, ?_⟩
  unfold savedEntry
  cases hforce : e.forceClosedLoop with
  | true => simp [isClosedOf]
  | false =>
    simp only [Bool.false_eq_true, false_or]
    constructor
    · intro h
      exact h.symm
    · intro h
      exact h.symm

/-- C30 as amended, at a concrete input: the auto-closed, not forced path. -/
theorem saved_closed_flag_is_forced_flag_witness :
    (savedEntry "P" ⟨[⟨0, 0, 0⟩, ⟨10, 0, 0⟩, ⟨0, 0, 1 / 20⟩], [], [], false, none⟩).isClosed
      = false :=
  (saved_closed_flag_is_forced_flag "P"
    ⟨[⟨0, 0, 0⟩, ⟨10, 0, 0⟩, ⟨0, 0, 1 / 20⟩], [], [], false, none⟩ (by simp)).1

/-! ## Camera manager: save / activate round trip -/

theorem applyQuaternion_invert_round_trip (v : Vec3) (q : Quat) (hunit : q.normSq = 1) :
    (v.applyQuaternion q.invert).applyQuaternion q = v := by
  obtain ⟨vx, vy, vz⟩ := v
  obtain ⟨qx, qy, qz, qw⟩ := q
  simp only [Quat.normSq] at hunit
  simp only [Vec3.applyQuaternion, Quat.invert, Vec3.mk.injEq]
  refine ⟨?_, ?_, ?_⟩
  · linear_combination
      (4 * ((qx * qx + qy * qy + qz * qz) * vx - (qx * vx + qy * vy + qz * vz) * qx)) * hunit
  · linear_combination
      (4 * ((qx * qx + qy * qy + qz * qz) * vy - (qx * vx + qy * vy + qz * vz) * qy)) * hunit
  · linear_combination
      (4 * ((qx * qx + qy * qy + qz * qz) * vz - (qx * vx + qy * vy + qz * vz) * qz)) * hunit

theorem mul_invert_mul (q r : Quat) (hunit : q.normSq = 1) : q.mul (q.invert.mul r) = r := by
  obtain ⟨rx, ry, rz, rw⟩ := r
  obtain ⟨qx, qy, qz, qw⟩ := q
  simp only [Quat.normSq] at hunit
  simp only [Quat.mul, Quat.invert, Quat.mk.injEq]
  refine ⟨?_, ?_, ?_, ?_⟩
  · linear_combination rx * hunit
  · linear_combination ry * hunit
  · linear_combination rz * hunit
  · linear_combination rw * hunit

theorem rotateOnAxis_zero (trig : HalfAngleTrig) (hsin : trig.sinHalf 0 = 0)
    (hcos : trig.cosHalf 0 = 1) (axis : Vec3) (q : Quat) : rotateOnAxis trig axis 0 q = q := by
  obtain ⟨qx, qy, qz, qw⟩ := q
  simp only [rotateOnAxis, Quat.mul, hsin, hcos, Quat.mk.injEq]
  refine ⟨?_, ?_, ?_, ?_⟩ <;> ring

theorem customCameraPose_of_saved (trig : HalfAngleTrig) (hsin : trig.sinHalf 0 = 0)
    (hcos : trig.cosHalf 0 = 1) (car camera : Pose) (hunit : car.quaternion.normSq = 1)
    (name : String) :
    customCameraPose trig car
      ⟨name, (relativePose car camera).1, (relativePose car camera).2⟩ 0 0 0 = camera := by
  obtain ⟨c, r⟩ := camera
  obtain ⟨p, q⟩ := car
  simp only [customCameraPose, relativePose, rotateOnAxis_zero trig hsin hcos,
    applyQuaternion_invert_round_trip _ q hunit, mul_invert_mul q r hunit, Pose.mk.injEq,
    and_true]
  obtain ⟨cx, cy, cz⟩ := c
  obtain ⟨px, py, pz⟩ := p
  simp [Vec3.add, Vec3.sub]

theorem updateCameraManagerUI_fields (s : Session) :
    (updateCameraManagerUI s).activeCamVal = s.activeCameraName ∧
    (updateCameraManagerUI s).cameraPitch = s.cameraPitch ∧
    (updateCameraManagerUI s).cameraYaw = s.cameraYaw ∧
    (updateCameraManagerUI s).cameraRoll = s.cameraRoll := by
  have h := logSwitch_fields (orDefaultChase s.activeCameraName)
    { s with activeCamVal := s.activeCameraName }
  exact ⟨h.2.2.2.2.1, h.2.2.2.2.2.2.2.2.1, h.2.2.2.2.2.2.2.2.2.1, h.2.2.2.2.2.2.2.2.2.2⟩

theorem cameraSaveName_ne_empty (input : String) (cams : List CameraDefinition) :
    cameraSaveName input cams ≠ "" := by
  unfold cameraSaveName
  split
  · intro h
    have hlen := congrArg String.length h
    rw [String.length_append] at hlen
    have h7 : ("Camera " : String).length = 7 := by decide
    have h0 : ("" : String).length = 0 := by decide
    omega
  · assumption

theorem saveCamera_of_fresh (input : String) (car camera : Pose) (w : Studio)
    (cams : List CameraDefinition) (hcams : w.cameras = some cams)
    (hfresh : cams.any (fun c => decide (c.name = cameraSaveName input cams)) = false) :
    saveCamera input car camera w =
      { session := updateCameraManagerUI
          { w.session with activeCameraName := some (cameraSaveName input cams) },
        cameras := some (cams ++
          [{ name := cameraSaveName input cams, offset := (relativePose car camera).1,
             rotation := (relativePose car camera).2 }]) } := by
  unfold saveCamera
  simp only [hcams, hfresh, Bool.false_eq_true, if_false]

/-- A save whose name is already in the list is refused and changes nothing. -/
theorem saveCamera_of_collision (input : String) (car camera : Pose) (w : Studio)
    (cams : List CameraDefinition) (hcams : w.cameras = some cams)
    (hclash : cams.any (fun c => decide (c.name = cameraSaveName input cams)) = true) :
    saveCamera input car camera w = w := by
  unfold saveCamera
  simp only [hcams, hclash, if_true]

theorem activeCameraPose_of_found (trig : HalfAngleTrig) (car : Pose) (s : Session)
    (cams : List CameraDefinition) (name : String) (cam : CameraDefinition)
    (hname : s.activeCamVal = some name) (hne : name ≠ "")
    (hfind : cams.find? (fun c => decide (c.name = name)) = some cam) :
    activeCameraPose trig car ⟨s, some cams⟩ =
      some (customCameraPose trig car cam s.cameraPitch s.cameraYaw s.cameraRoll) := by
  unfold activeCameraPose
  simp only [hname, if_neg hne, hfind, Option.map_some']

/-- C23: for every car pose with a unit quaternion and every camera world pose,
the camera definition saved from them (offset: the inverted car quaternion
applied to `c − p`; rotation: the inverted car quaternion times `r`), when
activated in custom mode with the car pose unchanged and the pitch, yaw and
roll sliders at `0`, gives the camera position `c` and orientation `r` again;
so does the save button followed by the camera selection of the next frame;
and the floor constraint applied afterwards keeps that pose when the camera is
at least `1.2` above the terrain found under it. -/
theorem camera_save_activate_round_trip (trig : HalfAngleTrig) (hsin : trig.sinHalf 0 = 0)
    (hcos : trig.cosHalf 0 = 1) (car camera : Pose) (hunit : car.quaternion.normSq = 1) :
    (∀ name : String,
      customCameraPose trig car
        ⟨name, (relativePose car camera).1, (relativePose car camera).2⟩ 0 0 0 = camera) ∧
    (∀ (input : String) (w : Studio) (cams : List CameraDefinition),
      w.cameras = some cams →
      cams.any (fun c => decide (c.name = cameraSaveName input cams)) = false →
      w.session.cameraPitch = 0 → w.session.cameraYaw = 0 → w.session.cameraRoll = 0 →
        activeCameraPose trig car (saveCamera input car camera w) = some camera) ∧
    (∀ (name : String) (groundHeight : Option ℚ),
      (∀ height : ℚ, groundHeight = some height → height + 6 / 5 ≤ camera.position.y) →
        cameraFloorClamp groundHeight
          (customCameraPose trig car
            ⟨name, (relativePose car camera).1, (relativePose car camera).2⟩ 0 0 0) = camera) := by
  refine ⟨?_, ?_, ?_⟩
  · intro name
    exact customCameraPose_of_saved trig hsin hcos car camera hunit name
  rotate_left
  · intro name groundHeight hfloor
    rw [customCameraPose_of_saved trig hsin hcos car camera hunit name]
    unfold cameraFloorClamp
    cases groundHeight with
    | none => rfl
    | some height =>
      simp only
      rw [if_neg (not_lt.mpr (hfloor height rfl))]
  · intro input w cams hcams hfresh hpitch hyaw hroll
    rw [saveCamera_of_fresh input car camera w cams hcams hfresh]
    have hfields := updateCameraManagerUI_fields
      { w.session with activeCameraName := some (cameraSaveName input cams) }
    have hnone : cams.find? (fun c => decide (c.name = cameraSaveName input cams)) = none := by
      rw [List.find?_eq_none]
      exact List.any_eq_false.mp hfresh
    rw [activeCameraPose_of_found trig car _ _ (cameraSaveName input cams)
      ⟨cameraSaveName input cams, (relativePose car camera).1, (relativePose car camera).2⟩
      hfields.1 (cameraSaveName_ne_empty input cams)
      (by simp [List.find?_append, hnone])]
    rw [hfields.2.1, hfields.2.2.1, hfields.2.2.2]
    simp only [hpitch, hyaw, hroll]
    rw [customCameraPose_of_saved trig hsin hcos car camera hunit]

/-- C23 on the scenario: a car at `(1, 2, 3)` turned by the unit quaternion
`(0, 3/5, 0, 4/5)`, the camera exactly at the car's position with the car's
orientation (zero relative rotation), saved as "A" on a car without cameras. -/
theorem camera_save_activate_round_trip_witness :
    activeCameraPose ⟨fun d => d / 2, fun _ => 1⟩ ⟨⟨1, 2, 3⟩, ⟨0, 3 / 5, 0, 4 / 5⟩⟩
        (saveCamera "A" ⟨⟨1, 2, 3⟩, ⟨0, 3 / 5, 0, 4 / 5⟩⟩ ⟨⟨1, 2, 3⟩, ⟨0, 3 / 5, 0, 4 / 5⟩⟩
          ⟨Session.init, some []⟩)
      = some ⟨⟨1, 2, 3⟩, ⟨0, 3 / 5, 0, 4 / 5⟩⟩ :=
  (camera_save_activate_round_trip ⟨fun d => d / 2, fun _ => 1⟩ (by norm_num) rfl
    ⟨⟨1, 2, 3⟩, ⟨0, 3 / 5, 0, 4 / 5⟩⟩ ⟨⟨1, 2, 3⟩, ⟨0, 3 / 5, 0, 4 / 5⟩⟩
    (by norm_num [Quat.normSq])).2.1 "A" ⟨Session.init, some []⟩ [] rfl rfl rfl rfl rfl

/-! ## Camera manager: names -/

/-- C22, evaluated on the code: on a car without cameras, "A" is saved, "B" is saved
(and is the active camera), then the name input is set to "A" and the
overwrite button is pressed: the list holds two cameras named "A". -/
theorem overwrite_rename_duplicates_name :
    ((runCameraOps (fun _ => ⟨0, 0, 0, 1⟩)
      [.save "A" ⟨⟨0, 0, 0⟩, ⟨0, 0, 0, 1⟩⟩ ⟨⟨0, 5, 10⟩, ⟨0, 0, 0, 1⟩⟩,
        .save "B" ⟨⟨0, 0, 0⟩, ⟨0, 0, 0, 1⟩⟩ ⟨⟨0, 5, 10⟩, ⟨0, 0, 0, 1⟩⟩,
        .overwrite "A" ⟨⟨0, 0, 0⟩, ⟨0, 0, 0, 1⟩⟩ ⟨⟨0, 5, 10⟩, ⟨0, 0, 0, 1⟩⟩]
      ⟨Session.init, some []⟩).cameras.map (fun cams => cams.map (fun c => c.name)))
      = some ["A", "A"] := by
  simp [runCameraOps, CameraOp.apply, saveCamera, overwriteCamera, overwriteFirst,
    cameraSaveName, updateCameraManagerUI, setWindowActiveCameraName, logSwitch, Session.init]

end PathRace
